import Mathlib

set_option maxRecDepth 100000

/-!
Verification development for the YandexMusicBetaModeRust patcher.

The definitions below are a shallow embedding of the program's source:

* `src/patches.rs`  — the literal text/JSON transformations
  (`patch_package_json`, `patch_config_js`, `patch_system_menu_js`,
  `patch_create_window_js`, `patch_main_js`, `patch_html`, and the constant
  injected-script bodies).
* `src/patcher.rs`  — the extractor fallback chains (`extract_installer`,
  `extract_asar`), the patch-application pass (`apply_patches`), the
  directory-preparation and resource-location stages of `process_build`,
  and the HTML tree-rewrite pass (`inject_mod_into_html`).

Strings are modelled as Lean `String`s; the scan-and-replace loop of Rust's
`str::replace` (all non-overlapping occurrences, left to right) is modelled
explicitly by `replaceAll` on `List Char`.  JSON documents
(`serde_json::Value`) are modelled by the inductive `Json`, with objects as
association lists whose operations mirror the map operations used by the
source (`get_mut`, `insert`, `remove`, and the panicking `IndexMut`); JSON
numbers are modelled as integers, which covers every numeric literal the
patcher reads or writes.  Filesystem side effects are modelled by explicit
state passing: a working tree is a list of (relative path, content) pairs,
and the directory layout touched by `process_build` is a record of existing
directories and files with paths as segment lists.  External processes
(7z, p7zip, asar, npx) are modelled by an environment record giving each
candidate invocation's outcome; extraction functions additionally return
the trace of candidates actually invoked, making the chain's control flow
(short-circuit on first success) visible to theorems.
-/

/-! ## Scan-and-replace on character lists (Rust `str::replace`) -/

/-- Fuel-indexed scan, structurally recursive so that concrete instances
evaluate inside the kernel; `fuel ≥ s.length` always holds at call sites. -/
def replaceAllAux (pat repl : List Char) : Nat → List Char → List Char
  | _, [] => []
  | 0, s => s
  | fuel + 1, c :: rest =>
    if pat ≠ [] ∧ pat.isPrefixOf (c :: rest) then
      repl ++ replaceAllAux pat repl fuel ((c :: rest).drop pat.length)
    else
      c :: replaceAllAux pat repl fuel rest

/-- All non-overlapping occurrences of `pat` in `s`, scanned left to right,
are replaced by `repl`; mirrors Rust's `str::replace`.  An empty pattern is
never used by the source; here it leaves the string unchanged. -/
def replaceAll (pat repl s : List Char) : List Char :=
  replaceAllAux pat repl s.length s

/-- Fuel-indexed match counter with the same scan structure. -/
def occCountAux (pat : List Char) : Nat → List Char → Nat
  | _, [] => 0
  | 0, _ => 0
  | fuel + 1, c :: rest =>
    if pat ≠ [] ∧ pat.isPrefixOf (c :: rest) then
      1 + occCountAux pat fuel ((c :: rest).drop pat.length)
    else
      occCountAux pat fuel rest

/-- Number of matches the scan of `replaceAll` finds. -/
def occCount (pat s : List Char) : Nat :=
  occCountAux pat s.length s


/-- `content.replace(pat, repl)` at the `String` level. -/
def strReplace (content pat repl : String) : String :=
  (replaceAll pat.toList repl.toList content.toList).asString

/-! ## `src/patches.rs`: constants -/

/-- Blocked analytics and telemetry URLs (`BLOCKED_ANALYTICS_URLS`). -/
def BLOCKED_ANALYTICS_URLS : List String :=
  [ "https://yandex.ru/clck/*"
  , "https://mc.yandex.ru/*"
  , "https://api.music.yandex.net/dynamic-pages/trigger/*"
  , "https://log.strm.yandex.ru/*"
  , "https://api.acquisition-gwe.plus.yandex.net/*"
  , "https://api.events.plus.yandex.net/*"
  , "https://events.plus.yandex.net/*"
  , "https://plus.yandex.net/*"
  , "https://yandex.ru/ads/*"
  , "https://strm.yandex.ru/ping" ]

/-- Banned headers to remove from API requests (`BANNED_HEADERS`). -/
def BANNED_HEADERS : List String := ["x-yandex-music-device", "x-request-id"]

/-- Banned dependencies to remove from package.json (`BANNED_DEPENDENCIES`). -/
def BANNED_DEPENDENCIES : List String := ["@yandex-chats/signer"]

/-- JSON string escaping as performed by `serde_json::to_string` on the
string constants above (which contain no control characters). -/
def jsonEscapeChar (c : Char) : String :=
  if c = '"' then "\\\"" else if c = '\\' then "\\\\" else String.singleton c

/-- `serde_json::to_string` of a string. -/
def jsonEncodeString (s : String) : String :=
  "\"" ++ String.join (s.toList.map jsonEscapeChar) ++ "\""

/-- `serde_json::to_string` of a `&[&str]` slice (compact form). -/
def jsonEncodeStringList (xs : List String) : String :=
  "[" ++ String.intercalate "," (xs.map jsonEncodeString) ++ "]"

/-! ## `src/patches.rs`: generated script bodies -/

/-- Body of the raw string returned by `generate_settings_reader_js`. -/
def settingsReaderBody : String :=
  "\nconst fs = require(\"fs\");\nconst path = require(\"path\");\nconst electron = require(\"electron\");\nconst appFolder = electron.app.getPath(\"userData\");\nconst settingsFilePath = path.join(appFolder, \"mod_settings.json\");\nlet enableSystemToolbar = false;\ntry \x7b\n  enableSystemToolbar = JSON.parse(fs.readFileSync(settingsFilePath, \"utf8\"))[\"devtools/systemToolbar\"];\n\x7d catch (e) \x7b\x7d\n"

/-- `generate_settings_reader_js`. -/
def generate_settings_reader_js : String := settingsReaderBody

/-- Template text of `generate_analytics_blocker_js` before `{urls}`. -/
def blockerPart0 : String :=
  "\nconst \x7b session \x7d = require(\"electron\");\nsession.defaultSession.webRequest.onBeforeRequest(\n  \x7b\n    urls: "

/-- Template text between `{urls}` and `{headers}`. -/
def blockerPart1 : String :=
  ",\n  \x7d,\n  (details, callback) => \x7b\n    callback(\x7b cancel: true \x7d);\n  \x7d,\n);\n\nsession.defaultSession.webRequest.onBeforeSendHeaders(\n  \x7b\n    urls: [\"https://api.music.yandex.net/*\"],\n  \x7d,\n  (details, callback) => \x7b\n    const bannedHeaders = "

/-- Template text after `{headers}`. -/
def blockerPart2 : String :=
  ";\n    bannedHeaders.forEach((header) => \x7b\n      details.requestHeaders[header] = undefined;\n    \x7d);\n    callback(\x7b requestHeaders: details.requestHeaders \x7d);\n  \x7d,\n);\n"

/-- `generate_analytics_blocker_js`: the `format!` template instantiated
with the JSON encodings of the two constant lists. -/
def generate_analytics_blocker_js : String :=
  blockerPart0 ++ jsonEncodeStringList BLOCKED_ANALYTICS_URLS
    ++ blockerPart1 ++ jsonEncodeStringList BANNED_HEADERS ++ blockerPart2

/-- `MOD_MAIN_JS` constant. -/
def MOD_MAIN_JS : String :=
  "\nconst electron = require(\"electron\");\nconst fs = require(\"fs\");\nconst path = require(\"path\");\nconst process = require(\"process\");\n\nconst appFolder = electron.app.getPath(\"userData\");\nconst settingsFilePath = path.join(appFolder, \"mod_settings.json\");\nconst defaultDownloadPath = path.join(appFolder, \"Downloads\");\n\n// Create settings directory\nfs.mkdir(appFolder, \x7b recursive: true \x7d, (err) => \x7b\n  if (err) return console.error(err);\n  console.log(\"mod_settings directory created successfully!\");\n\x7d);\n\n// Create default download directory\nfs.mkdir(defaultDownloadPath, \x7b recursive: true \x7d, (err) => \x7b\n  if (err) return console.error(err);\n  console.log(\"Default download directory created successfully!\");\n\x7d);\n\n// Initialize settings file\nif (!fs.existsSync(settingsFilePath)) \x7b\n  const initialSettings = \x7b\n    downloadFolderPath: defaultDownloadPath,\n  \x7d;\n  fs.writeFileSync(settingsFilePath, JSON.stringify(initialSettings, null, 2));\n\x7d else \x7b\n  try \x7b\n    const settings = JSON.parse(fs.readFileSync(settingsFilePath, \"utf8\"));\n    if (!settings.downloadFolderPath) \x7b\n      settings.downloadFolderPath = defaultDownloadPath;\n      fs.writeFileSync(settingsFilePath, JSON.stringify(settings, null, 2));\n    \x7d\n  \x7d catch (e) \x7b\n    const initialSettings = \x7b\n      downloadFolderPath: defaultDownloadPath,\n    \x7d;\n    fs.writeFileSync(settingsFilePath, JSON.stringify(initialSettings, null, 2));\n  \x7d\n\x7d\n\n// IPC handlers for settings\nelectron.ipcMain.handle(\"yandexMusicMod.getStorageValue\", (_ev, key) => \x7b\n  const settings = fs.readFileSync(settingsFilePath, \"utf8\") || \"\x7b\x7d\";\n  const parsed = JSON.parse(settings);\n  return parsed[key] !== undefined ? parsed[key] : null;\n\x7d);\n\nelectron.ipcMain.on(\"yandexMusicMod.setStorageValue\", (_ev, key, value) => \x7b\n  const settings = JSON.parse(fs.readFileSync(settingsFilePath, \"utf8\"));\n  settings[key] = value;\n  fs.writeFileSync(settingsFilePath, JSON.stringify(settings, null, 2));\n\n  electron.BrowserWindow.getAllWindows().forEach((window) =>\n    window.webContents.send(\"yandexMusicMod.storageValueUpdated\", key, value),\n  );\n\x7d);\n\n// Folder selection dialog\nelectron.ipcMain.handle(\"yandexMusicMod.selectDownloadFolder\", async (_ev) => \x7b\n  const result = await electron.dialog.showOpenDialog(\x7b\n    properties: [\"openDirectory\"],\n    title: \"Select download folder\",\n  \x7d);\n\n  if (result.canceled || !result.filePaths.length) \x7b\n    return \x7b success: false, path: null \x7d;\n  \x7d\n\n  return \x7b success: true, path: result.filePaths[0] \x7d;\n\x7d);\n\n// Open folder\nelectron.ipcMain.handle(\"yandexMusicMod.openFolder\", async (_ev, folderPath) => \x7b\n  try \x7b\n    require(\"child_process\").exec(\x60start \"\" \"$\x7bfolderPath\x7d\"\x60);\n    return \x7b success: true \x7d;\n  \x7d catch (error) \x7b\n    console.error(\"Failed to open folder:\", error);\n    return \x7b success: false, error: error.message \x7d;\n  \x7d\n\x7d);\n\n// Open download directory\nelectron.ipcMain.on(\"yandexMusicMod.openDownloadDirectory\", (_ev) => \x7b\n  let saveFolder;\n  try \x7b\n    const settings = JSON.parse(fs.readFileSync(settingsFilePath, \"utf8\"));\n    saveFolder = settings.downloadFolderPath || process.env.USERPROFILE + \"\\\\YandexMod Download\";\n  \x7d catch (e) \x7b\n    saveFolder = process.env.USERPROFILE + \"\\\\YandexMod Download\";\n  \x7d\n  require(\"child_process\").exec(\x27start \"\" \"\x27 + saveFolder + \x27\"\x27);\n\x7d);\n\nconsole.log(\"YandexMusicMod main.js loaded successfully!\");\n"

/-- `MOD_PRELOAD_JS` constant. -/
def MOD_PRELOAD_JS : String :=
  "\nconst \x7b contextBridge, ipcRenderer \x7d = require(\"electron\");\n\n// Expose mod API to the renderer process\ncontextBridge.exposeInMainWorld(\"yandexMusicMod\", \x7b\n  getStorageValue: (key) => ipcRenderer.invoke(\"yandexMusicMod.getStorageValue\", key),\n  setStorageValue: (key, value) => ipcRenderer.send(\"yandexMusicMod.setStorageValue\", key, value),\n  onStorageValueUpdated: (callback) => \x7b\n    ipcRenderer.on(\"yandexMusicMod.storageValueUpdated\", (event, key, value) => \x7b\n      callback(key, value);\n    \x7d);\n  \x7d,\n  selectDownloadFolder: () => ipcRenderer.invoke(\"yandexMusicMod.selectDownloadFolder\"),\n  openFolder: (folderPath) => ipcRenderer.invoke(\"yandexMusicMod.openFolder\", folderPath),\n  openDownloadDirectory: () => ipcRenderer.send(\"yandexMusicMod.openDownloadDirectory\"),\n\x7d);\n\nconsole.log(\"YandexMusicMod preload.js loaded successfully!\");\n"

/-! ## `src/patches.rs`: text patch functions -/

/-- `patch_config_js`: four literal replacements, in source order. -/
def patch_config_js (content : String) : String :=
  strReplace
    (strReplace
      (strReplace
        (strReplace content "enableDevTools: false" "enableDevTools: true")
        "enableDevTools:false" "enableDevTools: true")
      "enableAutoUpdate: true" "enableAutoUpdate: false")
    "enableAutoUpdate:true" "enableAutoUpdate: false"

/-- `patch_system_menu_js`: prepends the settings reader, then replaces the
platform test by `enableSystemToolbar`. -/
def patch_system_menu_js (content : String) : String :=
  generate_settings_reader_js ++ "\n" ++
    strReplace content
      "deviceInfo_js_1.devicePlatform === platform_js_1.Platform.MACOS"
      "enableSystemToolbar"

/-- `patch_create_window_js`: prepends the settings reader, applies six
replacements, then optionally injects the devtools opener. -/
def patch_create_window_js (content : String) (auto_devtools : Bool) : String :=
  let result := generate_settings_reader_js ++ "\n" ++
    (strReplace
      (strReplace
        (strReplace
          (strReplace
            (strReplace
              (strReplace content "config_js_1.config.app.enableDevTools" "true")
              "titleBarStyle: \x27hidden\x27" "titleBarStyle: !enableSystemToolbar && \x27hidden\x27")
            "titleBarStyle:\x27hidden\x27" "titleBarStyle: !enableSystemToolbar && \x27hidden\x27")
          "minWidth: 768" "minWidth: 360")
        "minHeight: 650" "minHeight: 550")
      "show: false" "show: true")
  if auto_devtools then
    strReplace result "return window" "window.webContents.openDevTools();\nreturn window"
  else
    result

/-- `patch_main_js`: replaces `createWindow)();` by itself followed by the
analytics blocker. -/
def patch_main_js (content : String) : String :=
  strReplace content "createWindow)();"
    ("createWindow)();" ++ generate_analytics_blocker_js)

/-- The script and stylesheet references `patch_html` injects after the
head tag. -/
def htmlInjectedAssets : String :=
  "<script src=\"/yandexMusicMod/renderer.js\"></script>\n        <link rel=\"stylesheet\" href=\"/yandexMusicMod/renderer.css\">"

/-- The replacement text `patch_html` substitutes for `<head>`. -/
def htmlInjection : String := "<head>" ++ htmlInjectedAssets

/-- `patch_html`: injects the mod script and stylesheet after `<head>`. -/
def patch_html (content : String) : String :=
  strReplace content "<head>" htmlInjection

/-! ## JSON documents (`serde_json::Value`)

Objects are association lists; the operations mirror the map operations the
source uses (`BTreeMap` has unique keys, so first-match lookup, first-match
replacement and remove-all-matches coincide with map behaviour on every
value the program builds).  JSON numbers are modelled as integers: every
number the patcher reads or writes is an integer, and the bundled parser
rejects fractional/exponent literals rather than approximating them. -/

inductive Json where
  | null : Json
  | bool (b : Bool) : Json
  | num (n : Int) : Json
  | str (s : String) : Json
  | arr (elems : List Json) : Json
  | obj (fields : List (String × Json)) : Json

/-- First-match lookup in an object's field list (`BTreeMap` lookup). -/
def lookupField : List (String × Json) → String → Option Json
  | [], _ => none
  | (k, v) :: rest, key => if k = key then some v else lookupField rest key

/-- `BTreeMap::remove`: drop the binding of `key`. -/
def removeField (fields : List (String × Json)) (key : String) : List (String × Json) :=
  fields.filter (fun f => f.1 ≠ key)

/-- `BTreeMap::insert`: replace the binding of `key` if present, otherwise
add it. -/
def insertField : List (String × Json) → String → Json → List (String × Json)
  | [], key, v => [(key, v)]
  | (k, w) :: rest, key, v =>
    if k = key then (key, v) :: rest else (k, w) :: insertField rest key v

/-- Apply `f` to an object's fields, leave any other value unchanged; this
is the `if let Some(obj) = v.as_object_mut()` pattern. -/
def applyIfObj (f : List (String × Json) → List (String × Json)) : Json → Json
  | .obj fields => .obj (f fields)
  | v => v

/-- Rewrite the value bound to `key` (first binding) by `applyIfObj f`. -/
def mapFieldObj (key : String) (f : List (String × Json) → List (String × Json)) :
    List (String × Json) → List (String × Json)
  | [] => []
  | (k, v) :: rest =>
    if k = key then (k, applyIfObj f v) :: rest
    else (k, v) :: mapFieldObj key f rest

/-- The `if let Some(x) = json.get_mut(key) { if let Some(obj) = x.as_object_mut() { … } }`
pattern: on an object root, rewrite the object bound to `key`; on any other
root, `get_mut` returns `None` and nothing happens. -/
def modifyObjField (v : Json) (key : String) (f : List (String × Json) → List (String × Json)) : Json :=
  match v with
  | .obj fields => .obj (mapFieldObj key f fields)
  | _ => v

/-- `json[key] = value` (`serde_json`'s `IndexMut<&str>`): inserts into an
object, turns `Null` into a fresh object, and panics (`none`) on any other
root value. -/
def setIndex (v : Json) (key : String) (x : Json) : Option Json :=
  match v with
  | .obj fields => some (.obj (insertField fields key x))
  | .null => some (.obj (insertField [] key x))
  | _ => none

/-- `Value::get(key)`: field lookup on objects, `none` elsewhere. -/
def getJ (v : Json) (key : String) : Option Json :=
  match v with
  | .obj fields => lookupField fields key
  | _ => none

/-! ## `patch_package_json` (value level) -/

/-- `for banned in BANNED_DEPENDENCIES { obj.remove(*banned) }`. -/
def stripBannedDeps (fields : List (String × Json)) : List (String × Json) :=
  BANNED_DEPENDENCIES.foldl removeField fields

/-- The three `common` inserts, in source order. -/
def setCommon (fields : List (String × Json)) : List (String × Json) :=
  insertField
    (insertField
      (insertField fields "REFRESH_EVENT_TRIGGER_TIME_MS" (.num 999999999))
      "UPDATE_POLL_INTERVAL_MS" (.num 999999999))
    "SUPPORT_URL" (.str "<empty>")

/-- The author/copyright string used by the patch. -/
def authorText : String :=
  "YandexMusicBetaModeFastLP [github.com/Jhon-Crow/YandexMusicBetaModeFastLP]"

/-- The five `meta` inserts, in source order. -/
def setMeta (fields : List (String × Json)) : List (String × Json) :=
  insertField
    (insertField
      (insertField
        (insertField
          (insertField fields "PRODUCT_NAME" (.str "Yandex Music Mod"))
          "PRODUCT_NAME_LOCALIZED" (.str "Yandex Music Mod"))
        "APP_ID" (.str "ru.yandex.desktop.music.mod"))
      "COPYRIGHT" (.str authorText))
    "TRADEMARK" (.str authorText)

/-- The four `appConfig` inserts, in source order. -/
def setAppConfig (fields : List (String × Json)) : List (String × Json) :=
  insertField
    (insertField
      (insertField
        (insertField fields "enableDevTools" (.bool true))
        "enableAutoUpdate" (.bool false))
      "enableUpdateByProbability" (.bool false))
    "systemDefaultLanguage" (.str "ru")

/-- The `json!({ "appId": …, … })` literal assigned to `json["build"]`. -/
def buildVal : Json :=
  .obj
    [ ("appId", .str "ru.yandex.desktop.music.mod")
    , ("productName", .str "Яндекс Музыка")
    , ("win", .obj [("icon", .str "assets/icon.ico")])
    , ("mac", .obj [("icon", .str "assets/icon.ico")])
    , ("linux", .obj [("icon", .str "assets/icon.png")])
    , ("extraResources", .arr
        [ .obj
            [ ("from", .str "assets/")
            , ("to", .str "assets/")
            , ("filter", .arr [.str "**/*"]) ] ]) ]

/-- The document-level transformation performed by `patch_package_json`
between parsing and re-serialising, with the source's mutation order:
dependencies, devDependencies, common, name, author, meta, appConfig,
build.  `none` models the `IndexMut` panic on a non-object, non-null
root. -/
def patch_package_json_val (j : Json) : Option Json :=
  (setIndex
    (modifyObjField
      (modifyObjField
        (modifyObjField j "dependencies" stripBannedDeps)
        "devDependencies" stripBannedDeps)
      "common" setCommon)
    "name" (.str "YandexMusicMod")).bind
  (fun j4 =>
    ((setIndex j4 "author" (.str authorText)).bind
      (fun j5 =>
        setIndex
          (modifyObjField
            (modifyObjField j5 "meta" setMeta)
            "appConfig" setAppConfig)
          "build" buildVal)))

/-! ## JSON parsing and printing (`serde_json::from_str` / `to_string_pretty`)

The parser is fuel-indexed (fuel bounds the nesting depth, one unit per
character is always enough).  It accepts the JSON the patcher ever meets;
fractional and exponent number forms are reported as errors instead of
being approximated (see the note on `Json`). -/

/-- Skip JSON whitespace. -/
def skipWs : List Char → List Char
  | c :: rest =>
    if c = ' ' ∨ c = '\n' ∨ c = '\t' ∨ c = '\r' then skipWs rest else c :: rest
  | [] => []

/-- Decode one string-literal body up to the closing quote. -/
def parseStringBody : List Char → Except String (String × List Char)
  | [] => .error "unexpected end of input in string"
  | c :: rest =>
    if c = '"' then .ok ("", rest)
    else if c = '\\' then
      match rest with
      | [] => .error "unexpected end of input in escape"
      | e :: rest2 =>
        let dec : Except String (String × List Char) := parseStringBody rest2
        match dec with
        | .error msg => .error msg
        | .ok (s, rem) =>
          if e = 'n' then .ok ("\n" ++ s, rem)
          else if e = 't' then .ok ("\t" ++ s, rem)
          else if e = 'r' then .ok ("\r" ++ s, rem)
          else if e = '"' then .ok ("\"" ++ s, rem)
          else if e = '\\' then .ok ("\\" ++ s, rem)
          else if e = '/' then .ok ("/" ++ s, rem)
          else .error "unsupported escape"
    else
      match parseStringBody rest with
      | .error msg => .error msg
      | .ok (s, rem) => .ok (String.singleton c ++ s, rem)

/-- Parse an unsigned decimal digit run. -/
def parseDigits : List Char → Nat → List Char → (Nat × List Char)
  | [], acc, orig => (acc, orig)
  | c :: rest, acc, _ =>
    if c.isDigit then parseDigits rest (acc * 10 + (c.toNat - 48)) rest
    else (acc, c :: rest)

mutual

/-- Parse one JSON value. -/
def parseValue (fuel : Nat) (cs : List Char) : Except String (Json × List Char) :=
  match fuel with
  | 0 => .error "input too deeply nested"
  | fuel + 1 =>
    match skipWs cs with
    | [] => .error "unexpected end of input"
    | c :: rest =>
      if c = 'n' then
        match rest with
        | 'u' :: 'l' :: 'l' :: rem => .ok (.null, rem)
        | _ => .error "invalid literal"
      else if c = 't' then
        match rest with
        | 'r' :: 'u' :: 'e' :: rem => .ok (.bool true, rem)
        | _ => .error "invalid literal"
      else if c = 'f' then
        match rest with
        | 'a' :: 'l' :: 's' :: 'e' :: rem => .ok (.bool false, rem)
        | _ => .error "invalid literal"
      else if c = '"' then
        match parseStringBody rest with
        | .error msg => .error msg
        | .ok (s, rem) => .ok (.str s, rem)
      else if c = '[' then
        parseArrayItems fuel (skipWs rest) true
      else if c = '\x7b' then
        parseObjectItems fuel (skipWs rest) true []
      else if c = '-' then
        match rest with
        | d :: rest2 =>
          if d.isDigit then
            let (n, rem) := parseDigits rest2 (d.toNat - 48) rest2
            match rem with
            | e :: _ =>
              if e = '.' ∨ e = 'e' ∨ e = 'E' then .error "unsupported number form"
              else .ok (.num (-(n : Int)), rem)
            | [] => .ok (.num (-(n : Int)), [])
          else .error "invalid number"
        | [] => .error "invalid number"
      else if c.isDigit then
        let (n, rem) := parseDigits rest (c.toNat - 48) rest
        match rem with
        | e :: _ =>
          if e = '.' ∨ e = 'e' ∨ e = 'E' then .error "unsupported number form"
          else .ok (.num (n : Int), rem)
        | [] => .ok (.num (n : Int), [])
      else .error "unexpected character"

/-- Parse the items of an array after `[`; `first` is true before the first
item. -/
def parseArrayItems (fuel : Nat) (cs : List Char) (first : Bool) : Except String (Json × List Char) :=
  match fuel with
  | 0 => .error "input too deeply nested"
  | fuel + 1 =>
    match cs with
    | ']' :: rem =>
      if first then .ok (.arr [], rem) else .error "trailing comma"
    | _ =>
      match parseValue fuel cs with
      | .error msg => .error msg
      | .ok (v, rem) =>
        match skipWs rem with
        | ']' :: rem2 => .ok (.arr [v], rem2)
        | ',' :: rem2 =>
          match parseArrayItems fuel (skipWs rem2) false with
          | .error msg => .error msg
          | .ok (.arr vs, rem3) => .ok (.arr (v :: vs), rem3)
          | .ok _ => .error "internal parse error"
        | _ => .error "expected comma or closing bracket"

/-- Parse the members of an object after the opening brace; duplicate keys
keep the last value, as `serde_json`'s map insert does. -/
def parseObjectItems (fuel : Nat) (cs : List Char) (first : Bool)
    (acc : List (String × Json)) : Except String (Json × List Char) :=
  match fuel with
  | 0 => .error "input too deeply nested"
  | fuel + 1 =>
    match cs with
    | '\x7d' :: rem =>
      if first then .ok (.obj acc, rem) else .error "trailing comma"
    | '"' :: rest =>
      match parseStringBody rest with
      | .error msg => .error msg
      | .ok (k, rem) =>
        match skipWs rem with
        | ':' :: rem2 =>
          match parseValue fuel rem2 with
          | .error msg => .error msg
          | .ok (v, rem3) =>
            match skipWs rem3 with
            | '\x7d' :: rem4 => .ok (.obj (insertField acc k v), rem4)
            | ',' :: rem4 => parseObjectItems fuel (skipWs rem4) false (insertField acc k v)
            | _ => .error "expected comma or closing brace"
        | _ => .error "expected colon"
    | _ => .error "expected object key"

end

/-- `serde_json::from_str`. -/
def parseJson (s : String) : Except String Json :=
  match parseValue (s.length + 1) s.toList with
  | .error msg => .error msg
  | .ok (v, rem) =>
    match skipWs rem with
    | [] => .ok v
    | _ => .error "trailing characters"

/-! ## Pretty printing (`serde_json::to_string_pretty`, two-space indent) -/

/-- Indentation prefix. -/
def ppIndent (n : Nat) : String := String.join (List.replicate n "  ")

mutual

/-- Pretty-print one value at nesting depth `n`. -/
def ppJson (n : Nat) : Json → String
  | .null => "null"
  | .bool true => "true"
  | .bool false => "false"
  | .num i => toString i
  | .str s => jsonEncodeString s
  | .arr [] => "[]"
  | .arr (x :: xs) =>
    "[\n" ++ ppIndent (n + 1) ++ ppJson (n + 1) x ++ ppElems (n + 1) xs
      ++ "\n" ++ ppIndent n ++ "]"
  | .obj [] => "\x7b\x7d"
  | .obj ((k, v) :: fs) =>
    "\x7b\n" ++ ppIndent (n + 1) ++ jsonEncodeString k ++ ": " ++ ppJson (n + 1) v
      ++ ppFields (n + 1) fs ++ "\n" ++ ppIndent n ++ "\x7d"

/-- Remaining array elements, each preceded by a comma and newline. -/
def ppElems (n : Nat) : List Json → String
  | [] => ""
  | x :: xs => ",\n" ++ ppIndent n ++ ppJson n x ++ ppElems n xs

/-- Remaining object members. -/
def ppFields (n : Nat) : List (String × Json) → String
  | [] => ""
  | (k, v) :: fs => ",\n" ++ ppIndent n ++ jsonEncodeString k ++ ": " ++ ppJson n v ++ ppFields n fs

end

/-- `serde_json::to_string_pretty`. -/
def printJson (v : Json) : String := ppJson 0 v

/-! ## Run results

Rust distinguishes a returned `Err` (propagated by `?`) from a panic that
aborts the process; `RunResult` records both forms of non-success. -/

inductive RunResult (α : Type) where
  | ok (a : α) : RunResult α
  | err (e : String) : RunResult α
  | panicked : RunResult α

/-- `patch_package_json` at the string level: parse, transform, pretty
print.  A parse failure is the returned error; a non-object, non-null root
hits `IndexMut`'s panic. -/
def patch_package_json (content : String) : RunResult String :=
  match parseJson content with
  | .error e => .err e
  | .ok j =>
    match patch_package_json_val j with
    | some w => .ok (printJson w)
    | none => .panicked

/-! ## `src/patcher.rs`: the patch-application pass over a working tree

The working ("modded") tree is a list of (relative path, content) pairs;
path separators are written `/`. -/

/-- A working tree: relative file paths with their text contents. -/
abbrev FileTree := List (String × String)

/-- Content of the file at `path`, if present. -/
def lookupFile (t : FileTree) (path : String) : Option String :=
  match t with
  | [] => none
  | (p, c) :: rest => if p = path then some c else lookupFile rest path

/-- `fs::write`: overwrite the file at `path` (create it if absent). -/
def writeFile (t : FileTree) (path content : String) : FileTree :=
  match t with
  | [] => [(path, content)]
  | (p, c) :: rest =>
    if p = path then (path, content) :: rest else (p, c) :: writeFile rest path content

/-- The `if path.exists() { read; transform; write }` pattern shared by all
text patches in `apply_patches`. -/
def stepText (t : FileTree) (path : String) (f : String → String) : FileTree :=
  match lookupFile t path with
  | some content => writeFile t path (f content)
  | none => t

/-- Relative path of the splash-screen directory removed by
`apply_patches`. -/
def splashScreenDir : String := "app/media/splash_screen"

/-- `splash_screen_path.exists()`: some tree entry lies under the
directory. -/
def splash_exists (t : FileTree) : Bool :=
  t.any (fun e => (splashScreenDir ++ "/").toList.isPrefixOf e.1.toList)

/-- The final step of `apply_patches`: `fs::remove_dir_all` on the splash
screen directory, guarded by its existence. -/
def remove_splash_screen (t : FileTree) : FileTree :=
  if splash_exists t then
    t.filter (fun e => ¬ (splashScreenDir ++ "/").toList.isPrefixOf e.1.toList)
  else t

/-- The text-patch steps of `apply_patches` after the package.json step,
in source order: config.js, systemMenu.js, createWindow.js, index.js (with
the appended `MOD_MAIN_JS`), preload.js (with the appended
`MOD_PRELOAD_JS`), then splash-screen removal. -/
def apply_patches_rest (t : FileTree) (auto_devtools : Bool) : FileTree :=
  remove_splash_screen
    (stepText
      (stepText
        (stepText
          (stepText
            (stepText t "main/config.js" patch_config_js)
            "main/lib/systemMenu.js" patch_system_menu_js)
          "main/lib/createWindow.js" (fun c => patch_create_window_js c auto_devtools))
        "main/index.js"
        (fun c => patch_main_js c ++ "\n\n// YandexMusicMod main.js\n" ++ MOD_MAIN_JS))
      "main/lib/preload.js"
      (fun c => c ++ "\n\n// YandexMusicMod preload.js\n" ++ MOD_PRELOAD_JS))

/-- `apply_patches`: the package.json step first (its parse error is
propagated by `?`; a missing file is skipped), then the text patches and
the splash-screen removal. -/
def apply_patches (t : FileTree) (auto_devtools : Bool) : RunResult FileTree :=
  match lookupFile t "package.json" with
  | some content =>
    match patch_package_json content with
    | .ok patched => .ok (apply_patches_rest (writeFile t "package.json" patched) auto_devtools)
    | .err e => .err e
    | .panicked => .panicked
  | none => .ok (apply_patches_rest t auto_devtools)

/-- `inject_mod_into_html`: rewrite every file with the `html` extension
with `patch_html`. -/
def inject_mod_into_html (t : FileTree) : FileTree :=
  t.map (fun e => if (".html".toList).isSuffixOf e.1.toList then (e.1, patch_html e.2) else e)

/-! ## `src/patcher.rs`: extractor fallback chains

One external invocation either fails to spawn (tool not found), runs and
exits non-zero, or succeeds; the environment records give each candidate's
outcome.  The extraction functions return the source's `Result<()>`
together with the trace of candidates whose extraction was actually
invoked, in order. -/

inductive RunOutcome where
  | spawnError (msg : String) : RunOutcome
  | exitFailure (stderr : String) : RunOutcome
  | exitSuccess : RunOutcome

/-- Outcomes of the installer chain's candidates: whether
`find_7z_executable` locates a 7z binary, the outcome of its invocation,
the outcome of the `p7zip` invocation, and the result of the built-in
`extract_with_zip` decoder. -/
structure InstallerEnv where
  sevenZipFound : Bool
  sevenZipRun : RunOutcome
  p7zipRun : RunOutcome
  zipResult : Except String Unit

/-- `try_7z_extract`: success on a zero exit status, otherwise the error
carrying stderr or the spawn failure. -/
def try_7z_extract (run : RunOutcome) : Except String Unit :=
  match run with
  | .exitSuccess => .ok ()
  | .exitFailure stderr => .error ("7z extraction failed: " ++ stderr)
  | .spawnError e => .error ("Failed to run 7z: " ++ e)

/-- The aggregated failure message `extract_installer` bails with when
every candidate is exhausted. -/
def installerFailureMessage : String :=
  "Failed to extract installer. Please install 7z/7zip and ensure it's in PATH.\nOn Windows: Download from https://www.7-zip.org/\nOn Linux: apt install p7zip-full\nOn macOS: brew install p7zip"

/-- `extract_installer`: try 7z (only when found), then p7zip, then the
built-in zip decoder; first success returns immediately, and exhausting the
chain yields `installerFailureMessage`.  The second component is the trace
of invoked candidates. -/
def extract_installer (env : InstallerEnv) : Except String Unit × List String :=
  if env.sevenZipFound then
    match try_7z_extract env.sevenZipRun with
    | .ok _ => (.ok (), ["7z"])
    | .error _ =>
      match env.p7zipRun with
      | .exitSuccess => (.ok (), ["7z", "p7zip"])
      | _ =>
        match env.zipResult with
        | .ok _ => (.ok (), ["7z", "p7zip", "zip"])
        | .error _ => (.error installerFailureMessage, ["7z", "p7zip", "zip"])
  else
    match env.p7zipRun with
    | .exitSuccess => (.ok (), ["p7zip"])
    | _ =>
      match env.zipResult with
      | .ok _ => (.ok (), ["p7zip", "zip"])
      | .error _ => (.error installerFailureMessage, ["p7zip", "zip"])

/-- Outcomes of the resource-archive chain's candidates: the `asar`
command, `npx asar`, and the built-in asar decoder. -/
structure AsarEnv where
  asarRun : RunOutcome
  npxRun : RunOutcome
  nativeResult : Except String Unit

/-- The aggregated failure message `extract_asar` bails with when every
candidate is exhausted. -/
def asarFailureMessage : String :=
  "Failed to extract app.asar. Please install asar:\nnpm install -g asar\nOr ensure Node.js/npx is in PATH."

/-- `extract_asar`: try the `asar` tool, then `npx asar`, then the native
decoder; first success short-circuits, exhaustion yields
`asarFailureMessage`.  The second component is the invocation trace. -/
def extract_asar (env : AsarEnv) : Except String Unit × List String :=
  match env.asarRun with
  | .exitSuccess => (.ok (), ["asar"])
  | _ =>
    match env.npxRun with
    | .exitSuccess => (.ok (), ["asar", "npx"])
    | _ =>
      match env.nativeResult with
      | .ok _ => (.ok (), ["asar", "npx", "native"])
      | .error _ => (.error asarFailureMessage, ["asar", "npx", "native"])

/-! ## `src/patcher.rs`: the directory-preparation and resource-location
stages of `process_build`

Paths are segment lists; the filesystem is the set of existing directories
and files. -/

abbrev FsPath := List String

/-- Existing directories and files (with contents). -/
structure Fs where
  dirs : List FsPath
  files : List (FsPath × String)

/-- `Path::exists`. -/
def pathExists (fs : Fs) (p : FsPath) : Bool :=
  fs.dirs.contains p || fs.files.any (fun f => f.1 = p)

/-- `fs::remove_dir_all`: delete the directory and everything under it. -/
def remove_dir_all (fs : Fs) (p : FsPath) : Fs :=
  { dirs := fs.dirs.filter (fun q => ¬ p.isPrefixOf q)
  , files := fs.files.filter (fun f => ¬ p.isPrefixOf f.1) }

/-- Add each missing ancestor of `p` (shortest first), as
`fs::create_dir_all` does. -/
def mkdirChain (ds : List FsPath) (p : FsPath) : List FsPath :=
  (p.inits.filter (fun q => q ≠ [])).foldl
    (fun acc q => if acc.contains q then acc else acc ++ [q]) ds

/-- `fs::create_dir_all`. -/
def create_dir_all (fs : Fs) (p : FsPath) : Fs :=
  { fs with dirs := mkdirChain fs.dirs p }

/-- The `Init → DirectoriesPrepared` stage of `process_build`: delete the
per-version directory if it exists, then create `build_dir`, `extract_dir`
(together with its parent `temp`), `src` and `mod`. -/
def prepare_dirs (outputDir version : String) (fs : Fs) : Fs :=
  let buildDir : FsPath := [outputDir, version]
  let fs1 := if pathExists fs buildDir then remove_dir_all fs buildDir else fs
  let fs2 := create_dir_all fs1 buildDir
  let fs3 := create_dir_all fs2 [outputDir, version, "temp", "extracted"]
  let fs4 := create_dir_all fs3 [outputDir, version, "src"]
  create_dir_all fs4 [outputDir, version, "mod"]

/-- The five directories under the per-version directory after
`prepare_dirs`. -/
def preparedLayout (outputDir version : String) : List FsPath :=
  [ [outputDir, version]
  , [outputDir, version, "temp"]
  , [outputDir, version, "temp", "extracted"]
  , [outputDir, version, "src"]
  , [outputDir, version, "mod"] ]

/-- Well-formedness of a filesystem state: every proper ancestor of an
existing entry is an existing directory (true of every real filesystem
tree). -/
def fsClosed (fs : Fs) : Bool :=
  (fs.dirs ++ fs.files.map Prod.fst).all
    (fun q => (q.inits.filter (fun r => r ≠ [] ∧ r ≠ q)).all (fun r => fs.dirs.contains r))

/-- `fs::copy`: copy the content of `src` over `dst`. -/
def copy_file (fs : Fs) (src dst : FsPath) : Fs :=
  match fs.files.lookup src with
  | some content => { fs with files := (dst, content) :: fs.files.filter (fun f => f.1 ≠ dst) }
  | none => fs

/-- The `ResourceArchiveLocated` stage of `process_build`: bail with a
not-found error when `app.asar` is absent from its expected path in the
extracted tree; copy the icon next to the build directory only when it
exists, and continue either way. -/
def locate_app_asar (outputDir version : String) (fs : Fs) : Except String Fs :=
  let appAsarPath : FsPath := [outputDir, version, "temp", "extracted", "resources", "app.asar"]
  let appIconPath : FsPath := [outputDir, version, "temp", "extracted", "resources", "assets", "icon.ico"]
  if pathExists fs appAsarPath = false then
    .error ("app.asar not found at " ++ String.intercalate "/" appAsarPath)
  else if pathExists fs appIconPath then
    .ok (copy_file fs appIconPath [outputDir, version, "icon.ico"])
  else
    .ok fs

/-! ## Scan lemmas for `replaceAll` and `occCount` -/

theorem length_pos_of_ne_nil {pat : List Char} (h : pat ≠ []) : 0 < pat.length :=
  List.length_pos.mpr h

theorem replaceAllAux_fuel (pat repl : List Char) :
    ∀ f₁ f₂ s, s.length ≤ f₁ → s.length ≤ f₂ →
      replaceAllAux pat repl f₁ s = replaceAllAux pat repl f₂ s := by
  intro f₁
  induction f₁ with
  | zero =>
    intro f₂ s h1 _
    have : s = [] := List.eq_nil_of_length_eq_zero (Nat.le_zero.mp h1)
    subst this
    cases f₂ <;> rfl
  | succ f ih =>
    intro f₂ s h1 h2
    match s with
    | [] => cases f₂ <;> rfl
    | c :: rest =>
      match f₂ with
      | 0 => exact absurd h2 (by simp)
      | g + 1 =>
        simp only [replaceAllAux]
        by_cases hc : pat ≠ [] ∧ pat.isPrefixOf (c :: rest)
        · simp only [if_pos hc]
          have hplen := length_pos_of_ne_nil hc.1
          have hd : ((c :: rest).drop pat.length).length ≤ f := by
            simp only [List.length_drop, List.length_cons]
            simp only [List.length_cons] at h1
            omega
          have hd2 : ((c :: rest).drop pat.length).length ≤ g := by
            simp only [List.length_drop, List.length_cons]
            simp only [List.length_cons] at h2
            omega
          rw [ih g _ hd hd2]
        · simp only [if_neg hc]
          have hr : rest.length ≤ f := by simp only [List.length_cons] at h1; omega
          have hr2 : rest.length ≤ g := by simp only [List.length_cons] at h2; omega
          rw [ih g _ hr hr2]

theorem occCountAux_fuel (pat : List Char) :
    ∀ f₁ f₂ s, s.length ≤ f₁ → s.length ≤ f₂ →
      occCountAux pat f₁ s = occCountAux pat f₂ s := by
  intro f₁
  induction f₁ with
  | zero =>
    intro f₂ s h1 _
    have : s = [] := List.eq_nil_of_length_eq_zero (Nat.le_zero.mp h1)
    subst this
    cases f₂ <;> rfl
  | succ f ih =>
    intro f₂ s h1 h2
    match s with
    | [] => cases f₂ <;> rfl
    | c :: rest =>
      match f₂ with
      | 0 => exact absurd h2 (by simp)
      | g + 1 =>
        simp only [occCountAux]
        by_cases hc : pat ≠ [] ∧ pat.isPrefixOf (c :: rest)
        · simp only [if_pos hc]
          have hplen := length_pos_of_ne_nil hc.1
          have hd : ((c :: rest).drop pat.length).length ≤ f := by
            simp only [List.length_drop, List.length_cons]
            simp only [List.length_cons] at h1
            omega
          have hd2 : ((c :: rest).drop pat.length).length ≤ g := by
            simp only [List.length_drop, List.length_cons]
            simp only [List.length_cons] at h2
            omega
          rw [ih g _ hd hd2]
        · simp only [if_neg hc]
          have hr : rest.length ≤ f := by simp only [List.length_cons] at h1; omega
          have hr2 : rest.length ≤ g := by simp only [List.length_cons] at h2; omega
          rw [ih g _ hr hr2]

theorem replaceAll_nil (pat repl : List Char) : replaceAll pat repl [] = [] := rfl

theorem replaceAll_cons (pat repl : List Char) (c : Char) (rest : List Char) :
    replaceAll pat repl (c :: rest) =
      if pat ≠ [] ∧ pat.isPrefixOf (c :: rest) then
        repl ++ replaceAll pat repl ((c :: rest).drop pat.length)
      else
        c :: replaceAll pat repl rest := by
  show replaceAllAux pat repl (rest.length + 1) (c :: rest) = _
  simp only [replaceAllAux]
  by_cases hc : pat ≠ [] ∧ pat.isPrefixOf (c :: rest)
  · simp only [if_pos hc]
    have hplen := length_pos_of_ne_nil hc.1
    rw [replaceAllAux_fuel pat repl rest.length ((c :: rest).drop pat.length).length _
      (by simp only [List.length_drop, List.length_cons]; omega) (Nat.le_refl _)]
    rfl
  · simp only [if_neg hc]
    rfl

theorem occCount_nil (pat : List Char) : occCount pat [] = 0 := rfl

theorem occCount_cons (pat : List Char) (c : Char) (rest : List Char) :
    occCount pat (c :: rest) =
      if pat ≠ [] ∧ pat.isPrefixOf (c :: rest) then
        1 + occCount pat ((c :: rest).drop pat.length)
      else
        occCount pat rest := by
  show occCountAux pat (rest.length + 1) (c :: rest) = _
  simp only [occCountAux]
  by_cases hc : pat ≠ [] ∧ pat.isPrefixOf (c :: rest)
  · simp only [if_pos hc]
    have hplen := length_pos_of_ne_nil hc.1
    rw [occCountAux_fuel pat rest.length ((c :: rest).drop pat.length).length _
      (by simp only [List.length_drop, List.length_cons]; omega) (Nat.le_refl _)]
    rfl
  · simp only [if_neg hc]
    rfl

/-- Scan-shaped induction: the case analysis of `replaceAll`/`occCount`. -/
theorem scanInduction (pat : List Char) (P : List Char → Prop)
    (h0 : P [])
    (h1 : ∀ c rest, (pat ≠ [] ∧ pat.isPrefixOf (c :: rest)) →
      P ((c :: rest).drop pat.length) → P (c :: rest))
    (h2 : ∀ c rest, ¬ (pat ≠ [] ∧ pat.isPrefixOf (c :: rest)) →
      P rest → P (c :: rest)) :
    ∀ s, P s := by
  have main : ∀ n s, s.length ≤ n → P s := by
    intro n
    induction n with
    | zero =>
      intro s hs
      have : s = [] := List.eq_nil_of_length_eq_zero (Nat.le_zero.mp hs)
      subst this; exact h0
    | succ n ih =>
      intro s hs
      match s with
      | [] => exact h0
      | c :: rest =>
        by_cases hc : pat ≠ [] ∧ pat.isPrefixOf (c :: rest)
        · refine h1 c rest hc (ih _ ?_)
          have := length_pos_of_ne_nil hc.1
          simp only [List.length_drop, List.length_cons]
          simp only [List.length_cons] at hs
          omega
        · refine h2 c rest hc (ih _ ?_)
          simp only [List.length_cons] at hs
          omega
  exact fun s => main s.length s (Nat.le_refl _)

/-! ## Claim C1: first success short-circuits the fallback chains -/

/-- Claim C1: for every extraction chain (installer and packed-resource)
and every assignment of outcomes in which candidates `1..k-1` fail (for the
installer chain, candidate 7z also counts as failed when it is not found)
and candidate `k` succeeds, extraction returns success — the `Ok(())` the
succeeding candidate produced — and the invocation trace contains no
candidate after `k`. -/
theorem extract_first_success_short_circuits (env : InstallerEnv) (aenv : AsarEnv) :
    (env.sevenZipFound = true → env.sevenZipRun = .exitSuccess →
      extract_installer env = (.ok (), ["7z"])) ∧
    ((env.sevenZipFound = false ∨ env.sevenZipRun ≠ .exitSuccess) →
      env.p7zipRun = .exitSuccess →
      extract_installer env = (.ok (), (if env.sevenZipFound then ["7z"] else []) ++ ["p7zip"])) ∧
    ((env.sevenZipFound = false ∨ env.sevenZipRun ≠ .exitSuccess) →
      env.p7zipRun ≠ .exitSuccess → env.zipResult = .ok () →
      extract_installer env = (.ok (), (if env.sevenZipFound then ["7z"] else []) ++ ["p7zip", "zip"])) ∧
    (aenv.asarRun = .exitSuccess → extract_asar aenv = (.ok (), ["asar"])) ∧
    (aenv.asarRun ≠ .exitSuccess → aenv.npxRun = .exitSuccess →
      extract_asar aenv = (.ok (), ["asar", "npx"])) ∧
    (aenv.asarRun ≠ .exitSuccess → aenv.npxRun ≠ .exitSuccess →
      aenv.nativeResult = .ok () →
      extract_asar aenv = (.ok (), ["asar", "npx", "native"])) := by
  obtain ⟨f, r7, rp, rz⟩ := env
  obtain ⟨ra, rn, rv⟩ := aenv
  refine ⟨?_, ?_, ?_, ?_, ?_, ?_⟩
  · intro hf hr
    subst hf; subst hr
    rfl
  · intro h1 h2
    subst h2
    cases f with
    | false => rfl
    | true =>
      rcases h1 with h | h
      · exact Bool.noConfusion h
      · cases r7 with
        | exitSuccess => exact absurd rfl h
        | spawnError m => rfl
        | exitFailure s => rfl
  · intro h1 h2 h3
    subst h3
    cases f with
    | false =>
      cases rp with
      | exitSuccess => exact absurd rfl h2
      | spawnError m => rfl
      | exitFailure s => rfl
    | true =>
      rcases h1 with h | h
      · exact Bool.noConfusion h
      · cases r7 with
        | exitSuccess => exact absurd rfl h
        | spawnError m =>
          cases rp with
          | exitSuccess => exact absurd rfl h2
          | spawnError m2 => rfl
          | exitFailure s2 => rfl
        | exitFailure s =>
          cases rp with
          | exitSuccess => exact absurd rfl h2
          | spawnError m2 => rfl
          | exitFailure s2 => rfl
  · intro h
    subst h
    rfl
  · intro h1 h2
    subst h2
    cases ra with
    | exitSuccess => exact absurd rfl h1
    | spawnError m => rfl
    | exitFailure s => rfl
  · intro h1 h2 h3
    subst h3
    cases ra with
    | exitSuccess => exact absurd rfl h1
    | spawnError m =>
      cases rn with
      | exitSuccess => exact absurd rfl h2
      | spawnError m2 => rfl
      | exitFailure s2 => rfl
    | exitFailure s =>
      cases rn with
      | exitSuccess => exact absurd rfl h2
      | spawnError m2 => rfl
      | exitFailure s2 => rfl

/-- Witness for C1: each case of the short-circuit theorem instantiated at
a concrete outcome assignment. -/
theorem extract_first_success_short_circuits_witness :
    extract_installer ⟨true, .exitSuccess, .spawnError "p", .error "z"⟩ = (.ok (), ["7z"]) ∧
    extract_installer ⟨false, .spawnError "m", .exitSuccess, .error "z"⟩ = (.ok (), ["p7zip"]) ∧
    extract_installer ⟨true, .exitFailure "corrupt", .exitFailure "bad", .ok ()⟩
      = (.ok (), ["7z", "p7zip", "zip"]) ∧
    extract_asar ⟨.exitSuccess, .spawnError "n", .error "v"⟩ = (.ok (), ["asar"]) ∧
    extract_asar ⟨.spawnError "a", .exitSuccess, .error "v"⟩ = (.ok (), ["asar", "npx"]) ∧
    extract_asar ⟨.exitFailure "a", .exitFailure "n", .ok ()⟩
      = (.ok (), ["asar", "npx", "native"]) := by
  refine ⟨?_, ?_, ?_, ?_, ?_, ?_⟩
  · exact (extract_first_success_short_circuits
      ⟨true, .exitSuccess, .spawnError "p", .error "z"⟩
      ⟨.exitSuccess, .spawnError "n", .error "v"⟩).1 rfl rfl
  · exact (extract_first_success_short_circuits
      ⟨false, .spawnError "m", .exitSuccess, .error "z"⟩
      ⟨.exitSuccess, .spawnError "n", .error "v"⟩).2.1 (Or.inl rfl) rfl
  · exact (extract_first_success_short_circuits
      ⟨true, .exitFailure "corrupt", .exitFailure "bad", .ok ()⟩
      ⟨.exitSuccess, .spawnError "n", .error "v"⟩).2.2.1
      (Or.inr (fun h => RunOutcome.noConfusion h)) (fun h => RunOutcome.noConfusion h) rfl
  · exact (extract_first_success_short_circuits
      ⟨true, .exitSuccess, .spawnError "p", .error "z"⟩
      ⟨.exitSuccess, .spawnError "n", .error "v"⟩).2.2.2.1 rfl
  · exact (extract_first_success_short_circuits
      ⟨true, .exitSuccess, .spawnError "p", .error "z"⟩
      ⟨.spawnError "a", .exitSuccess, .error "v"⟩).2.2.2.2.1
      (fun h => RunOutcome.noConfusion h) rfl
  · exact (extract_first_success_short_circuits
      ⟨true, .exitSuccess, .spawnError "p", .error "z"⟩
      ⟨.exitFailure "a", .exitFailure "n", .ok ()⟩).2.2.2.2.2
      (fun h => RunOutcome.noConfusion h) (fun h => RunOutcome.noConfusion h) rfl

/-! ## Claim C2: the all-candidates-fail error -/

/-- Claim C2 (counterexample to the claim as stated): an outcome assignment
in which 7z runs and rejects the input with a distinctive stderr, p7zip
fails and the zip decoder fails.  The returned error is the fixed guidance
message, and none of the three candidates' individual failure reasons
occurs in it — so the aggregated error does not name each attempted
candidate's failure reason, and the found/ran-and-rejected distinction is
not visible in the returned error. -/
theorem extract_all_fail_reasons_absent :
    (extract_installer
        ⟨true, .exitFailure "CORRUPT_ARCHIVE_0xDEAD", .exitFailure "p7zip stderr", .error "zip reason"⟩).1
      = .error installerFailureMessage ∧
    occCount "CORRUPT_ARCHIVE_0xDEAD".toList installerFailureMessage.toList = 0 ∧
    occCount "zip reason".toList installerFailureMessage.toList = 0 ∧
    (extract_asar ⟨.spawnError "asar missing 0xBEEF", .exitFailure "npx stderr", .error "native reason"⟩).1
      = .error asarFailureMessage ∧
    occCount "asar missing 0xBEEF".toList asarFailureMessage.toList = 0 ∧
    occCount "npx stderr".toList asarFailureMessage.toList = 0 := by
  refine ⟨rfl, by decide, by decide, rfl, by decide, by decide⟩

/-- Claim C2 (amended): when every candidate in a chain fails, the returned
error is the chain's fixed install-guidance message — a constant naming the
external tools to install (7z/7zip and p7zip; asar and npx) but carrying no
per-candidate failure reasons; the not-found versus ran-and-rejected
distinction is only logged, not part of the returned error. -/
theorem extract_all_fail_fixed_guidance (env : InstallerEnv) (aenv : AsarEnv) :
    ((env.sevenZipFound = false ∨ env.sevenZipRun ≠ .exitSuccess) →
      env.p7zipRun ≠ .exitSuccess → env.zipResult ≠ .ok () →
      (extract_installer env).1 = .error installerFailureMessage) ∧
    (aenv.asarRun ≠ .exitSuccess → aenv.npxRun ≠ .exitSuccess →
      aenv.nativeResult ≠ .ok () →
      (extract_asar aenv).1 = .error asarFailureMessage) ∧
    0 < occCount "7z".toList installerFailureMessage.toList ∧
    0 < occCount "p7zip".toList installerFailureMessage.toList ∧
    0 < occCount "asar".toList asarFailureMessage.toList ∧
    0 < occCount "npx".toList asarFailureMessage.toList := by
  obtain ⟨f, r7, rp, rz⟩ := env
  obtain ⟨ra, rn, rv⟩ := aenv
  refine ⟨?_, ?_, by decide, by decide, by decide, by decide⟩
  · intro h1 h2 h3
    have hz : ∃ e, rz = .error e := by
      cases rz with
      | ok u => cases u; exact absurd rfl h3
      | error e => exact ⟨e, rfl⟩
    obtain ⟨e, he⟩ := hz
    subst he
    cases f with
    | false =>
      cases rp with
      | exitSuccess => exact absurd rfl h2
      | spawnError m => rfl
      | exitFailure s => rfl
    | true =>
      rcases h1 with h | h
      · exact Bool.noConfusion h
      · cases r7 with
        | exitSuccess => exact absurd rfl h
        | spawnError m =>
          cases rp with
          | exitSuccess => exact absurd rfl h2
          | spawnError m2 => rfl
          | exitFailure s2 => rfl
        | exitFailure s =>
          cases rp with
          | exitSuccess => exact absurd rfl h2
          | spawnError m2 => rfl
          | exitFailure s2 => rfl
  · intro h1 h2 h3
    have hv : ∃ e, rv = .error e := by
      cases rv with
      | ok u => cases u; exact absurd rfl h3
      | error e => exact ⟨e, rfl⟩
    obtain ⟨e, he⟩ := hv
    subst he
    cases ra with
    | exitSuccess => exact absurd rfl h1
    | spawnError m =>
      cases rn with
      | exitSuccess => exact absurd rfl h2
      | spawnError m2 => rfl
      | exitFailure s2 => rfl
    | exitFailure s =>
      cases rn with
      | exitSuccess => exact absurd rfl h2
      | spawnError m2 => rfl
      | exitFailure s2 => rfl

/-- Witness for the amended C2 at a concrete all-fail assignment. -/
theorem extract_all_fail_fixed_guidance_witness :
    (extract_installer ⟨false, .spawnError "not found", .exitFailure "p err", .error "z err"⟩).1
      = .error installerFailureMessage ∧
    (extract_asar ⟨.exitFailure "a err", .spawnError "no npx", .error "n err"⟩).1
      = .error asarFailureMessage := by
  constructor
  · exact (extract_all_fail_fixed_guidance
      ⟨false, .spawnError "not found", .exitFailure "p err", .error "z err"⟩
      ⟨.exitFailure "a err", .spawnError "no npx", .error "n err"⟩).1
      (Or.inl rfl) (fun h => RunOutcome.noConfusion h) (fun h => Except.noConfusion h)
  · exact (extract_all_fail_fixed_guidance
      ⟨false, .spawnError "not found", .exitFailure "p err", .error "z err"⟩
      ⟨.exitFailure "a err", .spawnError "no npx", .error "n err"⟩).2.1
      (fun h => RunOutcome.noConfusion h) (fun h => RunOutcome.noConfusion h)
      (fun h => Except.noConfusion h)

/-! ## Claim C3: missing-file policy of the patch pass -/

/-- Claim C3 (counterexample to the claim as stated): a working tree
without `package.json`.  `apply_patches` succeeds (the rule is skipped like
every other rule with a missing target) instead of producing the `Failed`
outcome the claim requires. -/
theorem apply_patches_missing_package_json_ok :
    lookupFile [("main/config.js", "enableDevTools: false")] "package.json" = none ∧
    apply_patches [("main/config.js", "enableDevTools: false")] false
      = .ok [("main/config.js", "enableDevTools: true")] :=
  ⟨rfl, rfl⟩

/-- Claim C3 (amended): a missing `package.json` is skipped non-fatally,
exactly like every other rule kind's missing target (the pure text steps
of `apply_patches_rest` skip absent files by construction); the
`JsonMutation` rule fails the run only when `package.json` exists but does
not parse, in which case the parse error is propagated. -/
theorem apply_patches_missing_file_policy (t : FileTree) (autoDev : Bool) :
    (lookupFile t "package.json" = none →
      apply_patches t autoDev = .ok (apply_patches_rest t autoDev)) ∧
    (∀ c e, lookupFile t "package.json" = some c → parseJson c = .error e →
      apply_patches t autoDev = .err e) := by
  constructor
  · intro h
    simp only [apply_patches, h]
  · intro c e hc he
    simp only [apply_patches, hc, patch_package_json, he]

/-- Witness for the amended C3: the empty tree is patched successfully;
a tree whose `package.json` is not JSON fails with the parse error. -/
theorem apply_patches_missing_file_policy_witness :
    apply_patches ([] : FileTree) false = .ok [] ∧
    apply_patches [("package.json", "not json")] false = .err "invalid literal" := by
  constructor
  · exact (apply_patches_missing_file_policy [] false).1 rfl
  · exact (apply_patches_missing_file_policy [("package.json", "not json")] false).2
      "not json" "invalid literal" rfl rfl

/-! ## Claim C8: locating the packed-resource archive -/

/-- Claim C8: the `ResourceArchiveLocated` stage fails with a not-found
error when `app.asar` is absent from its expected path in the extracted
tree; a missing icon is not an error — it is copied exactly when present
and the stage succeeds either way. -/
theorem locate_app_asar_policy (outputDir version : String) (fs : Fs) :
    (pathExists fs [outputDir, version, "temp", "extracted", "resources", "app.asar"] = false →
      locate_app_asar outputDir version fs =
        .error ("app.asar not found at "
          ++ String.intercalate "/" [outputDir, version, "temp", "extracted", "resources", "app.asar"])) ∧
    (pathExists fs [outputDir, version, "temp", "extracted", "resources", "app.asar"] = true →
      pathExists fs [outputDir, version, "temp", "extracted", "resources", "assets", "icon.ico"] = true →
      locate_app_asar outputDir version fs =
        .ok (copy_file fs
          [outputDir, version, "temp", "extracted", "resources", "assets", "icon.ico"]
          [outputDir, version, "icon.ico"])) ∧
    (pathExists fs [outputDir, version, "temp", "extracted", "resources", "app.asar"] = true →
      pathExists fs [outputDir, version, "temp", "extracted", "resources", "assets", "icon.ico"] = false →
      locate_app_asar outputDir version fs = .ok fs) := by
  refine ⟨?_, ?_, ?_⟩
  · intro h
    simp only [locate_app_asar, h]
    rfl
  · intro h1 h2
    simp only [locate_app_asar, h1, h2]
    rfl
  · intro h1 h2
    simp only [locate_app_asar, h1, h2]
    rfl

/-- Witness for C8 at three concrete filesystem states. -/
theorem locate_app_asar_policy_witness :
    locate_app_asar "out" "5.0.0" ⟨[], []⟩ =
      .error "app.asar not found at out/5.0.0/temp/extracted/resources/app.asar" ∧
    locate_app_asar "out" "5.0.0"
        ⟨[], [(["out", "5.0.0", "temp", "extracted", "resources", "app.asar"], "A"),
              (["out", "5.0.0", "temp", "extracted", "resources", "assets", "icon.ico"], "I")]⟩ =
      .ok ⟨[], [(["out", "5.0.0", "icon.ico"], "I"),
                (["out", "5.0.0", "temp", "extracted", "resources", "app.asar"], "A"),
                (["out", "5.0.0", "temp", "extracted", "resources", "assets", "icon.ico"], "I")]⟩ ∧
    locate_app_asar "out" "5.0.0"
        ⟨[], [(["out", "5.0.0", "temp", "extracted", "resources", "app.asar"], "A")]⟩ =
      .ok ⟨[], [(["out", "5.0.0", "temp", "extracted", "resources", "app.asar"], "A")]⟩ := by
  refine ⟨?_, ?_, ?_⟩
  · exact (locate_app_asar_policy "out" "5.0.0" ⟨[], []⟩).1 rfl
  · exact (locate_app_asar_policy "out" "5.0.0"
      ⟨[], [(["out", "5.0.0", "temp", "extracted", "resources", "app.asar"], "A"),
            (["out", "5.0.0", "temp", "extracted", "resources", "assets", "icon.ico"], "I")]⟩).2.1
      rfl rfl
  · exact (locate_app_asar_policy "out" "5.0.0"
      ⟨[], [(["out", "5.0.0", "temp", "extracted", "resources", "app.asar"], "A")]⟩).2.2
      rfl rfl

/-! ## Claim C9: splash-screen directory removal -/

/-- Claim C9: the splash-screen `DirectoryRemoval` step is a no-op success
when the directory does not exist, and when it does exist it deletes the
directory recursively — afterwards no tree entry lies under it. -/
theorem remove_splash_screen_policy (t : FileTree) :
    (splash_exists t = false → remove_splash_screen t = t) ∧
    (∀ p c, (p, c) ∈ remove_splash_screen t →
      (splashScreenDir ++ "/").toList.isPrefixOf p.toList = false) := by
  constructor
  · intro h
    unfold remove_splash_screen
    rw [h]
    rfl
  · intro p c hm
    unfold remove_splash_screen at hm
    by_cases he : splash_exists t
    · rw [if_pos he] at hm
      have hmem := List.of_mem_filter hm
      have hni : ¬ (splashScreenDir ++ "/").toList <+: p.toList := by simpa using hmem
      exact Bool.eq_false_iff.mpr (fun hh => hni (List.isPrefixOf_iff_prefix.mp hh))
    · rw [if_neg he] at hm
      have hf : splash_exists t = false := by
        revert he; cases splash_exists t <;> simp
      unfold splash_exists at hf
      have hall := List.any_eq_false.mp hf
      have hni : ¬ (splashScreenDir ++ "/").toList <+: p.toList := by
        simpa using hall (p, c) hm
      exact Bool.eq_false_iff.mpr (fun hh => hni (List.isPrefixOf_iff_prefix.mp hh))

/-- Witness for C9: a tree without the directory is returned unchanged; in
a tree with the directory, a surviving entry is outside it. -/
theorem remove_splash_screen_policy_witness :
    remove_splash_screen [("main/index.js", "x")] = [("main/index.js", "x")] ∧
    ("app/media/splash_screen/").toList.isPrefixOf "main/index.js".toList = false := by
  constructor
  · exact (remove_splash_screen_policy [("main/index.js", "x")]).1 rfl
  · exact (remove_splash_screen_policy
      [("app/media/splash_screen/img.png", "b"), ("main/index.js", "y")]).2
      "main/index.js" "y" (by decide)

/-! ## Claim C10: `patch_package_json` panics on a non-object root -/

/-- Claim C10: the input `[0]` parses as valid JSON with an array root, and
`patch_package_json` hits the `IndexMut` panic on it (the identity-field
assignments index the root unchecked), so the function is not total over
parseable JSON inputs. -/
theorem patch_package_json_panics_on_array_root :
    parseJson "[0]" = .ok (.arr [.num 0]) ∧
    patch_package_json_val (.arr [.num 0]) = none ∧
    patch_package_json "[0]" = .panicked :=
  ⟨rfl, rfl, rfl⟩

/-! ## Scan combinatorics: behaviour of `replaceAll` under occurrence
counts -/

theorem replaceAll_of_occCount_zero (pat repl : List Char) :
    ∀ s, occCount pat s = 0 → replaceAll pat repl s = s := by
  refine scanInduction pat (fun s => occCount pat s = 0 → replaceAll pat repl s = s) ?_ ?_ ?_
  · intro _
    rfl
  · intro c rest hc _ h
    rw [occCount_cons, if_pos hc] at h
    omega
  · intro c rest hc ih h
    rw [occCount_cons, if_neg hc] at h
    rw [replaceAll_cons, if_neg hc, ih h]

theorem replaceAll_length (pat repl : List Char) :
    ∀ s, (replaceAll pat repl s).length + occCount pat s * pat.length
      = s.length + occCount pat s * repl.length := by
  refine scanInduction pat (fun s =>
    (replaceAll pat repl s).length + occCount pat s * pat.length
      = s.length + occCount pat s * repl.length) ?_ ?_ ?_
  · simp [replaceAll_nil, occCount_nil]
  · intro c rest hc ih
    rw [replaceAll_cons, if_pos hc, occCount_cons, if_pos hc]
    have hple : pat.length ≤ rest.length + 1 := by
      have := List.IsPrefix.length_le (List.isPrefixOf_iff_prefix.mp hc.2)
      simpa using this
    simp only [List.length_append, List.length_drop, List.length_cons] at *
    rw [Nat.add_mul, Nat.add_mul, Nat.one_mul, Nat.one_mul]
    omega
  · intro c rest hc ih
    rw [replaceAll_cons, if_neg hc, occCount_cons, if_neg hc]
    simp only [List.length_cons]
    omega

theorem replaceAll_decomp (pat repl : List Char) :
    ∀ s, 0 < occCount pat s →
      ∃ a b, s = a ++ pat ++ b ∧
        replaceAll pat repl s = a ++ repl ++ replaceAll pat repl b ∧
        occCount pat s = 1 + occCount pat b := by
  refine scanInduction pat (fun s => 0 < occCount pat s →
    ∃ a b, s = a ++ pat ++ b ∧
      replaceAll pat repl s = a ++ repl ++ replaceAll pat repl b ∧
      occCount pat s = 1 + occCount pat b) ?_ ?_ ?_
  · intro h
    simp [occCount_nil] at h
  · intro c rest hc _ _
    refine ⟨[], (c :: rest).drop pat.length, ?_, ?_, ?_⟩
    · have := List.prefix_iff_eq_append.mp (List.isPrefixOf_iff_prefix.mp hc.2)
      simpa using this.symm
    · rw [replaceAll_cons, if_pos hc]
      simp
    · rw [occCount_cons, if_pos hc]
  · intro c rest hc ih h
    rw [occCount_cons, if_neg hc] at h
    obtain ⟨a, b, hs, hr, ho⟩ := ih h
    refine ⟨c :: a, b, by simp [hs], ?_, ?_⟩
    · rw [replaceAll_cons, if_neg hc, hr]
      simp
    · rw [occCount_cons, if_neg hc, ho]

theorem occCount_pos_of_append (pat : List Char) (hp : pat ≠ []) :
    ∀ a b, 0 < occCount pat (a ++ pat ++ b) := by
  intro a
  induction a with
  | nil =>
    intro b
    cases pat with
    | nil => exact absurd rfl hp
    | cons p pt =>
      have hpre : (p :: pt).isPrefixOf (p :: (pt ++ b)) :=
        List.isPrefixOf_iff_prefix.mpr (List.prefix_append _ _)
      have heq : ([] : List Char) ++ (p :: pt) ++ b = p :: (pt ++ b) := by simp
      rw [heq, occCount_cons, if_pos ⟨List.cons_ne_nil p pt, hpre⟩]
      omega
  | cons c a ih =>
    intro b
    have : (c :: a) ++ pat ++ b = c :: (a ++ pat ++ b) := by simp
    rw [this, occCount_cons]
    by_cases hc : pat ≠ [] ∧ pat.isPrefixOf (c :: (a ++ pat ++ b))
    · rw [if_pos hc]
      omega
    · rw [if_neg hc]
      exact ih b

theorem occCount_pos_replaceAll (pat tail : List Char) (hp : pat ≠ []) (s : List Char)
    (hs : 0 < occCount pat s) :
    0 < occCount pat (replaceAll pat (pat ++ tail) s) := by
  obtain ⟨a, b, _, hr, _⟩ := replaceAll_decomp pat (pat ++ tail) s hs
  rw [hr]
  have : a ++ (pat ++ tail) ++ replaceAll pat (pat ++ tail) b
      = a ++ pat ++ (tail ++ replaceAll pat (pat ++ tail) b) := by simp
  rw [this]
  exact occCount_pos_of_append pat hp a _

/-- A replacement that rewrites the pattern to itself followed by a
non-empty tail strictly grows the string on every further run: the scan of
the second run still finds the pattern inside the first run's output. -/
theorem replace_insert_second_run_grows (pat tail : List Char) (hp : pat ≠ []) (ht : tail ≠ [])
    (s : List Char) (hs : 0 < occCount pat s) :
    replaceAll pat (pat ++ tail) (replaceAll pat (pat ++ tail) s)
      ≠ replaceAll pat (pat ++ tail) s := by
  intro heq
  have hto : 0 < occCount pat (replaceAll pat (pat ++ tail) s) :=
    occCount_pos_replaceAll pat tail hp s hs
  have hlen := replaceAll_length pat (pat ++ tail) (replaceAll pat (pat ++ tail) s)
  rw [heq] at hlen
  have htl : 0 < tail.length := List.length_pos.mpr ht
  simp only [List.length_append] at hlen
  rw [Nat.mul_add] at hlen
  have hmul : 0 < occCount pat (replaceAll pat (pat ++ tail) s) * tail.length :=
    Nat.mul_pos hto htl
  omega

/-! ## Consequences for `patch_main_js` and `patch_html` -/

theorem patch_main_js_toList (s : String) :
    (patch_main_js s).toList =
      replaceAll "createWindow)();".toList
        ("createWindow)();".toList ++ generate_analytics_blocker_js.toList) s.toList := by
  show (strReplace s "createWindow)();" ("createWindow)();" ++ generate_analytics_blocker_js)).toList = _
  unfold strReplace
  rw [List.toList_asString]
  simp only [String.toList, String.data_append]

/-- The main.js patch is never idempotent on a file containing the
`createWindow` call: its replacement text starts with the pattern itself,
so a second run finds the pattern again and inserts a second copy of the
analytics blocker. -/
theorem patch_main_js_second_run_grows (s : String)
    (hs : 0 < occCount "createWindow)();".toList s.toList) :
    patch_main_js (patch_main_js s) ≠ patch_main_js s := by
  intro heq
  have hlists := congrArg String.toList heq
  simp only [patch_main_js_toList] at hlists
  exact replace_insert_second_run_grows "createWindow)();".toList
    generate_analytics_blocker_js.toList (by decide)
    (List.length_pos.mp (by decide)) s.toList hs hlists

theorem replaceAll_single (pat repl s : List Char) (h : occCount pat s = 1) :
    ∃ a b, s = a ++ pat ++ b ∧ replaceAll pat repl s = a ++ repl ++ b ∧
      occCount pat b = 0 := by
  obtain ⟨a, b, hs, hr, ho⟩ := replaceAll_decomp pat repl s (by omega)
  have hb : occCount pat b = 0 := by omega
  exact ⟨a, b, hs, by rw [hr, replaceAll_of_occCount_zero pat repl b hb], hb⟩

/-! ## Claim C5: the markup tree-rewrite pass -/

/-- Claim C5 (counterexample to the claim as stated): a document in which
the literal `<head>` occurs twice receives two copies of the injected
script reference, not exactly one. -/
theorem patch_html_double_head_two_refs :
    0 < occCount "<head>".toList ("<head><head>" : String).toList ∧
    occCount "/yandexMusicMod/renderer.js".toList (patch_html "<head><head>").toList = 2 ∧
    occCount "/yandexMusicMod/renderer.css".toList (patch_html "<head><head>").toList = 2 := by
  refine ⟨by decide, by decide, by decide⟩

theorem patch_html_toList (s : String) :
    (patch_html s).toList = replaceAll "<head>".toList htmlInjection.toList s.toList := by
  show (strReplace s "<head>" htmlInjection).toList = _
  unfold strReplace
  rw [List.toList_asString]

/-- Claim C5 (amended): for every document in which the scan finds exactly
one occurrence of `<head>`, the rewrite inserts the injection block
immediately after that `<head>` and leaves every byte outside the
insertion unchanged; the inserted block itself contains exactly one
injected script reference and exactly one injected stylesheet reference. -/
theorem patch_html_unique_head (s : String)
    (h : occCount "<head>".toList s.toList = 1) :
    (∃ a b, s.toList = a ++ "<head>".toList ++ b ∧
      (patch_html s).toList = a ++ "<head>".toList ++ htmlInjectedAssets.toList ++ b) ∧
    occCount "/yandexMusicMod/renderer.js".toList htmlInjectedAssets.toList = 1 ∧
    occCount "/yandexMusicMod/renderer.css".toList htmlInjectedAssets.toList = 1 := by
  refine ⟨?_, by decide, by decide⟩
  obtain ⟨a, b, hs, hr, _⟩ := replaceAll_single "<head>".toList htmlInjection.toList s.toList h
  refine ⟨a, b, hs, ?_⟩
  rw [patch_html_toList, hr]
  have : htmlInjection.toList = "<head>".toList ++ htmlInjectedAssets.toList := by
    show ("<head>" ++ htmlInjectedAssets).toList = _
    simp only [String.toList, String.data_append]
  rw [this]
  simp

/-- Witness for the amended C5 at a concrete document with a unique
head tag. -/
theorem patch_html_unique_head_witness :
    (∃ a b, ("<html><head></head>" : String).toList = a ++ "<head>".toList ++ b ∧
      (patch_html "<html><head></head>").toList
        = a ++ "<head>".toList ++ htmlInjectedAssets.toList ++ b) ∧
    occCount "/yandexMusicMod/renderer.js".toList htmlInjectedAssets.toList = 1 ∧
    occCount "/yandexMusicMod/renderer.css".toList htmlInjectedAssets.toList = 1 :=
  patch_html_unique_head "<html><head></head>" (by decide)

/-! ## Field-list lemmas for the JSON model -/

theorem lookupField_insertField_self (fs : List (String × Json)) (k : String) (x : Json) :
    lookupField (insertField fs k x) k = some x := by
  induction fs with
  | nil => simp [insertField, lookupField]
  | cons f rest ih =>
    obtain ⟨k', v'⟩ := f
    by_cases hk : k' = k
    · subst hk
      simp [insertField, lookupField]
    · simp only [insertField, if_neg hk]
      simp only [lookupField, if_neg hk]
      exact ih

theorem lookupField_insertField_ne (fs : List (String × Json)) (k : String) (x : Json)
    (k' : String) (h : k ≠ k') :
    lookupField (insertField fs k x) k' = lookupField fs k' := by
  induction fs with
  | nil => simp [insertField, lookupField, if_neg h]
  | cons f rest ih =>
    obtain ⟨k0, v0⟩ := f
    by_cases hk : k0 = k
    · subst hk
      simp only [insertField, if_pos rfl, lookupField, if_neg h]
    · simp only [insertField, if_neg hk, lookupField, ih]

theorem insertField_lookup_eq (fs : List (String × Json)) (k : String) (x : Json)
    (h : lookupField fs k = some x) : insertField fs k x = fs := by
  induction fs with
  | nil => simp [lookupField] at h
  | cons f rest ih =>
    obtain ⟨k0, v0⟩ := f
    by_cases hk : k0 = k
    · subst hk
      simp [lookupField] at h
      subst h
      simp [insertField]
    · simp only [lookupField, if_neg hk] at h
      simp only [insertField, if_neg hk, List.cons.injEq, true_and]
      exact ih h

theorem lookupField_removeField_self (fs : List (String × Json)) (k : String) :
    lookupField (removeField fs k) k = none := by
  induction fs with
  | nil => rfl
  | cons f rest ih =>
    obtain ⟨k0, v0⟩ := f
    by_cases hk : k0 = k
    · subst hk
      simpa [removeField] using ih
    · simpa [removeField, hk, lookupField] using ih


theorem lookupField_removeField_ne (fs : List (String × Json)) (k0 k : String) (h : k ≠ k0) :
    lookupField (removeField fs k0) k = lookupField fs k := by
  induction fs with
  | nil => rfl
  | cons f rest ih =>
    obtain ⟨k1, v1⟩ := f
    by_cases hk : k1 = k0
    · subst hk
      have hdrop : removeField ((k1, v1) :: rest) k1 = removeField rest k1 := by
        simp [removeField, List.filter_cons]
      rw [hdrop, ih]
      have hne : ¬ k1 = k := fun hh => h hh.symm
      simp [lookupField, if_neg hne]
    · have hkeep : removeField ((k1, v1) :: rest) k0 = (k1, v1) :: removeField rest k0 := by
        simp [removeField, List.filter_cons, hk]
      rw [hkeep]
      by_cases hk1 : k1 = k
      · subst hk1
        simp [lookupField]
      · simp only [lookupField, if_neg hk1]
        exact ih

theorem removeField_removeField (fs : List (String × Json)) (k : String) :
    removeField (removeField fs k) k = removeField fs k := by
  simp [removeField, List.filter_filter]

theorem lookupField_mapFieldObj_self (k : String)
    (f : List (String × Json) → List (String × Json)) (fs : List (String × Json)) :
    lookupField (mapFieldObj k f fs) k = (lookupField fs k).map (applyIfObj f) := by
  induction fs with
  | nil => rfl
  | cons fd rest ih =>
    obtain ⟨k1, v1⟩ := fd
    by_cases hk : k1 = k
    · subst hk
      simp [mapFieldObj, lookupField]
    · simp only [mapFieldObj, if_neg hk, lookupField, if_neg hk]
      exact ih

theorem lookupField_mapFieldObj_ne (k : String)
    (f : List (String × Json) → List (String × Json)) (fs : List (String × Json))
    (k' : String) (h : k' ≠ k) :
    lookupField (mapFieldObj k f fs) k' = lookupField fs k' := by
  induction fs with
  | nil => rfl
  | cons fd rest ih =>
    obtain ⟨k1, v1⟩ := fd
    by_cases hk : k1 = k
    · subst hk
      have hne : ¬ k1 = k' := fun hh => h hh.symm
      simp only [mapFieldObj, if_pos rfl, lookupField, if_neg hne]
    · simp only [mapFieldObj, if_neg hk]
      by_cases hk1 : k1 = k'
      · subst hk1
        simp [lookupField]
      · simp only [lookupField, if_neg hk1]
        exact ih

theorem mapFieldObj_of_lookup_none (k : String)
    (f : List (String × Json) → List (String × Json)) (fs : List (String × Json))
    (h : lookupField fs k = none) : mapFieldObj k f fs = fs := by
  induction fs with
  | nil => rfl
  | cons fd rest ih =>
    obtain ⟨k1, v1⟩ := fd
    by_cases hk : k1 = k
    · subst hk
      simp [lookupField] at h
    · simp only [lookupField, if_neg hk] at h
      simp only [mapFieldObj, if_neg hk, List.cons.injEq, true_and]
      exact ih h

theorem mapFieldObj_of_stable (k : String)
    (f : List (String × Json) → List (String × Json)) (fs : List (String × Json))
    (v : Json) (h : lookupField fs k = some v) (hv : applyIfObj f v = v) :
    mapFieldObj k f fs = fs := by
  induction fs with
  | nil => simp [lookupField] at h
  | cons fd rest ih =>
    obtain ⟨k1, v1⟩ := fd
    by_cases hk : k1 = k
    · subst hk
      simp [lookupField] at h
      subst h
      simp [mapFieldObj, hv]
    · simp only [lookupField, if_neg hk] at h
      simp only [mapFieldObj, if_neg hk, List.cons.injEq, true_and]
      exact ih h

/-! ## Json-level lemmas -/

theorem getJ_modifyObjField_self (v : Json) (k : String)
    (f : List (String × Json) → List (String × Json)) :
    getJ (modifyObjField v k f) k = (getJ v k).map (applyIfObj f) := by
  cases v with
  | obj fs => exact lookupField_mapFieldObj_self k f fs
  | null => rfl
  | bool b => rfl
  | num n => rfl
  | str s => rfl
  | arr xs => rfl

theorem getJ_modifyObjField_ne (v : Json) (k : String)
    (f : List (String × Json) → List (String × Json)) (k' : String) (h : k' ≠ k) :
    getJ (modifyObjField v k f) k' = getJ v k' := by
  cases v with
  | obj fs => exact lookupField_mapFieldObj_ne k f fs k' h
  | null => rfl
  | bool b => rfl
  | num n => rfl
  | str s => rfl
  | arr xs => rfl

theorem modifyObjField_eq_self (v : Json) (k : String)
    (f : List (String × Json) → List (String × Json))
    (h : ∀ d, getJ v k = some d → applyIfObj f d = d) :
    modifyObjField v k f = v := by
  cases v with
  | obj fs =>
    show Json.obj (mapFieldObj k f fs) = Json.obj fs
    cases hl : lookupField fs k with
    | none => rw [mapFieldObj_of_lookup_none k f fs hl]
    | some d => rw [mapFieldObj_of_stable k f fs d hl (h d hl)]
  | null => rfl
  | bool b => rfl
  | num n => rfl
  | str s => rfl
  | arr xs => rfl

theorem setIndex_some_obj (v : Json) (k : String) (x : Json) (w : Json)
    (h : setIndex v k x = some w) : ∃ fw, w = Json.obj fw := by
  cases v with
  | obj fs =>
    simp only [setIndex, Option.some.injEq] at h
    exact ⟨_, h.symm⟩
  | null =>
    simp only [setIndex, Option.some.injEq] at h
    exact ⟨_, h.symm⟩
  | bool b => simp [setIndex] at h
  | num n => simp [setIndex] at h
  | str s => simp [setIndex] at h
  | arr xs => simp [setIndex] at h

theorem getJ_setIndex_self (v : Json) (k : String) (x : Json) (w : Json)
    (h : setIndex v k x = some w) : getJ w k = some x := by
  cases v with
  | obj fs =>
    simp only [setIndex, Option.some.injEq] at h
    subst h
    exact lookupField_insertField_self fs k x
  | null =>
    simp only [setIndex, Option.some.injEq] at h
    subst h
    exact lookupField_insertField_self [] k x
  | bool b => simp [setIndex] at h
  | num n => simp [setIndex] at h
  | str s => simp [setIndex] at h
  | arr xs => simp [setIndex] at h

theorem getJ_setIndex_ne (v : Json) (k : String) (x : Json) (w : Json) (k' : String)
    (hk : k ≠ k') (h : setIndex v k x = some w) : getJ w k' = getJ v k' := by
  cases v with
  | obj fs =>
    simp only [setIndex, Option.some.injEq] at h
    subst h
    exact lookupField_insertField_ne fs k x k' hk
  | null =>
    simp only [setIndex, Option.some.injEq] at h
    subst h
    show lookupField (insertField [] k x) k' = none
    rw [lookupField_insertField_ne [] k x k' hk]
    rfl
  | bool b => simp [setIndex] at h
  | num n => simp [setIndex] at h
  | str s => simp [setIndex] at h
  | arr xs => simp [setIndex] at h

theorem setIndex_eq_self (fs : List (String × Json)) (k : String) (x : Json)
    (h : lookupField fs k = some x) : setIndex (Json.obj fs) k x = some (Json.obj fs) := by
  simp only [setIndex, Option.some.injEq, Json.obj.injEq]
  exact insertField_lookup_eq fs k x h

theorem applyIfObj_idem (f : List (String × Json) → List (String × Json))
    (hf : ∀ d, f (f d) = f d) (v : Json) :
    applyIfObj f (applyIfObj f v) = applyIfObj f v := by
  cases v with
  | obj fs => show Json.obj (f (f fs)) = Json.obj (f fs); rw [hf]
  | null => rfl
  | bool b => rfl
  | num n => rfl
  | str s => rfl
  | arr xs => rfl

theorem stripBannedDeps_eq (d : List (String × Json)) :
    stripBannedDeps d = removeField d "@yandex-chats/signer" := rfl

theorem stripBannedDeps_idem (d : List (String × Json)) :
    stripBannedDeps (stripBannedDeps d) = stripBannedDeps d := by
  rw [stripBannedDeps_eq, stripBannedDeps_eq, removeField_removeField]

theorem setCommon_idem (d : List (String × Json)) :
    setCommon (setCommon d) = setCommon d := by
  have h1 : lookupField (setCommon d) "REFRESH_EVENT_TRIGGER_TIME_MS"
      = some (.num 999999999) := by
    unfold setCommon
    rw [lookupField_insertField_ne _ _ _ _ (by decide),
      lookupField_insertField_ne _ _ _ _ (by decide), lookupField_insertField_self]
  have h2 : lookupField (setCommon d) "UPDATE_POLL_INTERVAL_MS"
      = some (.num 999999999) := by
    unfold setCommon
    rw [lookupField_insertField_ne _ _ _ _ (by decide), lookupField_insertField_self]
  have h3 : lookupField (setCommon d) "SUPPORT_URL" = some (.str "<empty>") := by
    unfold setCommon
    rw [lookupField_insertField_self]
  show insertField
      (insertField
        (insertField (setCommon d) "REFRESH_EVENT_TRIGGER_TIME_MS" (.num 999999999))
        "UPDATE_POLL_INTERVAL_MS" (.num 999999999))
      "SUPPORT_URL" (.str "<empty>") = setCommon d
  rw [insertField_lookup_eq _ _ _ h1, insertField_lookup_eq _ _ _ h2,
    insertField_lookup_eq _ _ _ h3]

theorem setMeta_idem (d : List (String × Json)) :
    setMeta (setMeta d) = setMeta d := by
  have h1 : lookupField (setMeta d) "PRODUCT_NAME" = some (.str "Yandex Music Mod") := by
    unfold setMeta
    rw [lookupField_insertField_ne _ _ _ _ (by decide),
      lookupField_insertField_ne _ _ _ _ (by decide),
      lookupField_insertField_ne _ _ _ _ (by decide),
      lookupField_insertField_ne _ _ _ _ (by decide), lookupField_insertField_self]
  have h2 : lookupField (setMeta d) "PRODUCT_NAME_LOCALIZED"
      = some (.str "Yandex Music Mod") := by
    unfold setMeta
    rw [lookupField_insertField_ne _ _ _ _ (by decide),
      lookupField_insertField_ne _ _ _ _ (by decide),
      lookupField_insertField_ne _ _ _ _ (by decide), lookupField_insertField_self]
  have h3 : lookupField (setMeta d) "APP_ID" = some (.str "ru.yandex.desktop.music.mod") := by
    unfold setMeta
    rw [lookupField_insertField_ne _ _ _ _ (by decide),
      lookupField_insertField_ne _ _ _ _ (by decide), lookupField_insertField_self]
  have h4 : lookupField (setMeta d) "COPYRIGHT" = some (.str authorText) := by
    unfold setMeta
    rw [lookupField_insertField_ne _ _ _ _ (by decide), lookupField_insertField_self]
  have h5 : lookupField (setMeta d) "TRADEMARK" = some (.str authorText) := by
    unfold setMeta
    rw [lookupField_insertField_self]
  show insertField
      (insertField
        (insertField
          (insertField
            (insertField (setMeta d) "PRODUCT_NAME" (.str "Yandex Music Mod"))
            "PRODUCT_NAME_LOCALIZED" (.str "Yandex Music Mod"))
          "APP_ID" (.str "ru.yandex.desktop.music.mod"))
        "COPYRIGHT" (.str authorText))
      "TRADEMARK" (.str authorText) = setMeta d
  rw [insertField_lookup_eq _ _ _ h1, insertField_lookup_eq _ _ _ h2,
    insertField_lookup_eq _ _ _ h3, insertField_lookup_eq _ _ _ h4,
    insertField_lookup_eq _ _ _ h5]

theorem setAppConfig_idem (d : List (String × Json)) :
    setAppConfig (setAppConfig d) = setAppConfig d := by
  have h1 : lookupField (setAppConfig d) "enableDevTools" = some (.bool true) := by
    unfold setAppConfig
    rw [lookupField_insertField_ne _ _ _ _ (by decide),
      lookupField_insertField_ne _ _ _ _ (by decide),
      lookupField_insertField_ne _ _ _ _ (by decide), lookupField_insertField_self]
  have h2 : lookupField (setAppConfig d) "enableAutoUpdate" = some (.bool false) := by
    unfold setAppConfig
    rw [lookupField_insertField_ne _ _ _ _ (by decide),
      lookupField_insertField_ne _ _ _ _ (by decide), lookupField_insertField_self]
  have h3 : lookupField (setAppConfig d) "enableUpdateByProbability"
      = some (.bool false) := by
    unfold setAppConfig
    rw [lookupField_insertField_ne _ _ _ _ (by decide), lookupField_insertField_self]
  have h4 : lookupField (setAppConfig d) "systemDefaultLanguage" = some (.str "ru") := by
    unfold setAppConfig
    rw [lookupField_insertField_self]
  show insertField
      (insertField
        (insertField
          (insertField (setAppConfig d) "enableDevTools" (.bool true))
          "enableAutoUpdate" (.bool false))
        "enableUpdateByProbability" (.bool false))
      "systemDefaultLanguage" (.str "ru") = setAppConfig d
  rw [insertField_lookup_eq _ _ _ h1, insertField_lookup_eq _ _ _ h2,
    insertField_lookup_eq _ _ _ h3, insertField_lookup_eq _ _ _ h4]

/-- One run of the document-level `patch_package_json` transformation
leaves a fixed point: the second run removes already-removed dependencies,
re-inserts identical constants, and re-assigns identical identity fields. -/
theorem patch_package_json_val_idem (j w : Json)
    (h : patch_package_json_val j = some w) : patch_package_json_val w = some w := by
  unfold patch_package_json_val at h
  rw [Option.bind_eq_some] at h
  obtain ⟨j4, h4, h'⟩ := h
  rw [Option.bind_eq_some] at h'
  obtain ⟨j5, h5, hb⟩ := h'
  have hname : getJ w "name" = some (.str "YandexMusicMod") := by
    rw [getJ_setIndex_ne _ _ _ _ _ (by decide) hb,
      getJ_modifyObjField_ne _ _ _ _ (by decide),
      getJ_modifyObjField_ne _ _ _ _ (by decide),
      getJ_setIndex_ne _ _ _ _ _ (by decide) h5]
    exact getJ_setIndex_self _ _ _ _ h4
  have hauthor : getJ w "author" = some (.str authorText) := by
    rw [getJ_setIndex_ne _ _ _ _ _ (by decide) hb,
      getJ_modifyObjField_ne _ _ _ _ (by decide),
      getJ_modifyObjField_ne _ _ _ _ (by decide)]
    exact getJ_setIndex_self _ _ _ _ h5
  have hbuild : getJ w "build" = some buildVal := getJ_setIndex_self _ _ _ _ hb
  have hdeps : getJ w "dependencies"
      = (getJ j "dependencies").map (applyIfObj stripBannedDeps) := by
    rw [getJ_setIndex_ne _ _ _ _ _ (by decide) hb,
      getJ_modifyObjField_ne _ _ _ _ (by decide),
      getJ_modifyObjField_ne _ _ _ _ (by decide),
      getJ_setIndex_ne _ _ _ _ _ (by decide) h5,
      getJ_setIndex_ne _ _ _ _ _ (by decide) h4,
      getJ_modifyObjField_ne _ _ _ _ (by decide),
      getJ_modifyObjField_ne _ _ _ _ (by decide)]
    exact getJ_modifyObjField_self _ _ _
  have hdevdeps : getJ w "devDependencies"
      = (getJ (modifyObjField j "dependencies" stripBannedDeps) "devDependencies").map
          (applyIfObj stripBannedDeps) := by
    rw [getJ_setIndex_ne _ _ _ _ _ (by decide) hb,
      getJ_modifyObjField_ne _ _ _ _ (by decide),
      getJ_modifyObjField_ne _ _ _ _ (by decide),
      getJ_setIndex_ne _ _ _ _ _ (by decide) h5,
      getJ_setIndex_ne _ _ _ _ _ (by decide) h4,
      getJ_modifyObjField_ne _ _ _ _ (by decide)]
    exact getJ_modifyObjField_self _ _ _
  have hcommon : getJ w "common"
      = (getJ (modifyObjField (modifyObjField j "dependencies" stripBannedDeps)
            "devDependencies" stripBannedDeps) "common").map (applyIfObj setCommon) := by
    rw [getJ_setIndex_ne _ _ _ _ _ (by decide) hb,
      getJ_modifyObjField_ne _ _ _ _ (by decide),
      getJ_modifyObjField_ne _ _ _ _ (by decide),
      getJ_setIndex_ne _ _ _ _ _ (by decide) h5,
      getJ_setIndex_ne _ _ _ _ _ (by decide) h4]
    exact getJ_modifyObjField_self _ _ _
  have hmeta : getJ w "meta" = (getJ j5 "meta").map (applyIfObj setMeta) := by
    rw [getJ_setIndex_ne _ _ _ _ _ (by decide) hb,
      getJ_modifyObjField_ne _ _ _ _ (by decide)]
    exact getJ_modifyObjField_self _ _ _
  have happConfig : getJ w "appConfig"
      = (getJ (modifyObjField j5 "meta" setMeta) "appConfig").map (applyIfObj setAppConfig) := by
    rw [getJ_setIndex_ne _ _ _ _ _ (by decide) hb]
    exact getJ_modifyObjField_self _ _ _
  obtain ⟨fw, hfw⟩ := setIndex_some_obj _ _ _ _ hb
  subst hfw
  have e1 : modifyObjField (Json.obj fw) "dependencies" stripBannedDeps = Json.obj fw := by
    apply modifyObjField_eq_self
    intro d hd
    rw [hdeps, Option.map_eq_some'] at hd
    obtain ⟨x, _, hx⟩ := hd
    rw [← hx]
    exact applyIfObj_idem _ stripBannedDeps_idem x
  have e2 : modifyObjField (Json.obj fw) "devDependencies" stripBannedDeps = Json.obj fw := by
    apply modifyObjField_eq_self
    intro d hd
    rw [hdevdeps, Option.map_eq_some'] at hd
    obtain ⟨x, _, hx⟩ := hd
    rw [← hx]
    exact applyIfObj_idem _ stripBannedDeps_idem x
  have e3 : modifyObjField (Json.obj fw) "common" setCommon = Json.obj fw := by
    apply modifyObjField_eq_self
    intro d hd
    rw [hcommon, Option.map_eq_some'] at hd
    obtain ⟨x, _, hx⟩ := hd
    rw [← hx]
    exact applyIfObj_idem _ setCommon_idem x
  have e6 : modifyObjField (Json.obj fw) "meta" setMeta = Json.obj fw := by
    apply modifyObjField_eq_self
    intro d hd
    rw [hmeta, Option.map_eq_some'] at hd
    obtain ⟨x, _, hx⟩ := hd
    rw [← hx]
    exact applyIfObj_idem _ setMeta_idem x
  have e7 : modifyObjField (Json.obj fw) "appConfig" setAppConfig = Json.obj fw := by
    apply modifyObjField_eq_self
    intro d hd
    rw [happConfig, Option.map_eq_some'] at hd
    obtain ⟨x, _, hx⟩ := hd
    rw [← hx]
    exact applyIfObj_idem _ setAppConfig_idem x
  have e4 : setIndex (Json.obj fw) "name" (.str "YandexMusicMod") = some (Json.obj fw) :=
    setIndex_eq_self fw _ _ hname
  have e5 : setIndex (Json.obj fw) "author" (.str authorText) = some (Json.obj fw) :=
    setIndex_eq_self fw _ _ hauthor
  have e8 : setIndex (Json.obj fw) "build" buildVal = some (Json.obj fw) :=
    setIndex_eq_self fw _ _ hbuild
  unfold patch_package_json_val
  rw [e1, e2, e3, e4]
  show (some (Json.obj fw)).bind _ = some (Json.obj fw)
  rw [Option.some_bind]
  rw [e5]
  rw [Option.some_bind]
  rw [e6, e7, e8]

/-! ## Claim C4: idempotence profile of the patch rules -/

/-- Claim C4 (counterexample to the claim as stated): on a main-process
entry file containing the `createWindow` call, running the main.js
`TextReplaceList` patch a second time is not the identity — the
replacement text begins with the pattern itself, so the second run inserts
a second copy of the analytics blocker. -/
theorem patch_main_js_not_idempotent :
    patch_main_js (patch_main_js "(0, createWindow)();")
      ≠ patch_main_js "(0, createWindow)();" :=
  patch_main_js_second_run_grows "(0, createWindow)();" (by decide)

/-- Claim C4 (amended): applying the rule set twice equals applying it
once for the `JsonMutation` rule at the document level (no
double-insertion, double-replacement or double-removal), while neither
`TextAppend` nor the insertion-style `TextReplaceList` patch of main.js is
idempotent: whenever the file contains the `createWindow)();` pattern, a
second run of `patch_main_js` inserts a second copy of the injected
block. -/
theorem patch_rules_idempotence_profile :
    (∀ j w, patch_package_json_val j = some w → patch_package_json_val w = some w) ∧
    (∀ s : String, 0 < occCount "createWindow)();".toList s.toList →
      patch_main_js (patch_main_js s) ≠ patch_main_js s) :=
  ⟨patch_package_json_val_idem, patch_main_js_second_run_grows⟩

/-- Witness for the amended C4: the fixed point reached from the `null`
document, and the concrete non-idempotence of `patch_main_js`. -/
theorem patch_rules_idempotence_profile_witness :
    patch_package_json_val
        (Json.obj [("name", Json.str "YandexMusicMod"), ("author", Json.str authorText),
          ("build", buildVal)])
      = some (Json.obj [("name", Json.str "YandexMusicMod"), ("author", Json.str authorText),
          ("build", buildVal)]) ∧
    patch_main_js (patch_main_js "const w = (0, createWindow)();")
      ≠ patch_main_js "const w = (0, createWindow)();" := by
  constructor
  · exact patch_rules_idempotence_profile.1 Json.null _ rfl
  · exact patch_rules_idempotence_profile.2 "const w = (0, createWindow)();" (by decide)

/-! ## Claim C6: banned-dependency removal keeps unrelated entries -/

/-- Claim C6: on a package-metadata document whose `dependencies` map
contains the banned key together with an unrelated key, the `JsonMutation`
patch removes the banned key and leaves the unrelated key bound to its
original value. -/
theorem patch_package_json_removes_banned_dep
    (fv d : List (String × Json)) (k : String) (val bv : Json)
    (hdeps : lookupField fv "dependencies" = some (Json.obj d))
    (hbanned : lookupField d "@yandex-chats/signer" = some bv)
    (hk : k ≠ "@yandex-chats/signer")
    (hval : lookupField d k = some val) :
    ∃ w, patch_package_json_val (Json.obj fv) = some w ∧
      getJ w "dependencies"
        = some (Json.obj (removeField d "@yandex-chats/signer")) ∧
      lookupField (removeField d "@yandex-chats/signer") "@yandex-chats/signer" = none ∧
      lookupField (removeField d "@yandex-chats/signer") k = some val := by
  refine ⟨_, rfl, ?_, ?_, ?_⟩
  · show lookupField _ "dependencies" = _
    rw [lookupField_insertField_ne _ _ _ _ (by decide),
      lookupField_mapFieldObj_ne _ _ _ _ (by decide),
      lookupField_mapFieldObj_ne _ _ _ _ (by decide),
      lookupField_insertField_ne _ _ _ _ (by decide),
      lookupField_insertField_ne _ _ _ _ (by decide),
      lookupField_mapFieldObj_ne _ _ _ _ (by decide),
      lookupField_mapFieldObj_ne _ _ _ _ (by decide),
      lookupField_mapFieldObj_self, hdeps]
    simp [applyIfObj, stripBannedDeps_eq]
  · exact lookupField_removeField_self d "@yandex-chats/signer"
  · rw [lookupField_removeField_ne d "@yandex-chats/signer" k hk]
    exact hval

/-- Witness for C6: the document shape of the source's own unit test. -/
theorem patch_package_json_removes_banned_dep_witness :
    ∃ w, patch_package_json_val
        (Json.obj [("name", Json.str "yandex-music"),
          ("dependencies", Json.obj
            [("@yandex-chats/signer", Json.str "1.0.0"), ("other", Json.str "2.0.0")])])
      = some w ∧
      getJ w "dependencies"
        = some (Json.obj (removeField
            [("@yandex-chats/signer", Json.str "1.0.0"), ("other", Json.str "2.0.0")]
            "@yandex-chats/signer")) ∧
      lookupField (removeField
          [("@yandex-chats/signer", Json.str "1.0.0"), ("other", Json.str "2.0.0")]
          "@yandex-chats/signer") "@yandex-chats/signer" = none ∧
      lookupField (removeField
          [("@yandex-chats/signer", Json.str "1.0.0"), ("other", Json.str "2.0.0")]
          "@yandex-chats/signer") "other" = some (Json.str "2.0.0") :=
  patch_package_json_removes_banned_dep
    [("name", Json.str "yandex-music"),
      ("dependencies", Json.obj
        [("@yandex-chats/signer", Json.str "1.0.0"), ("other", Json.str "2.0.0")])]
    [("@yandex-chats/signer", Json.str "1.0.0"), ("other", Json.str "2.0.0")]
    "other" (Json.str "2.0.0") (Json.str "1.0.0") rfl rfl (by decide) rfl

/-! ## Claim C7: directory preparation wipes the per-version directory -/

theorem mem_foldl_add (l : List FsPath) (ds : List FsPath) (q : FsPath) :
    q ∈ l.foldl (fun acc r => if acc.contains r then acc else acc ++ [r]) ds ↔
      q ∈ ds ∨ q ∈ l := by
  induction l generalizing ds with
  | nil => simp
  | cons a l ih =>
    simp only [List.foldl_cons]
    rw [ih]
    by_cases hc : ds.contains a = true
    · rw [if_pos hc]
      have ha : a ∈ ds := List.elem_iff.mp hc
      constructor
      · rintro (h | h)
        · exact Or.inl h
        · exact Or.inr (List.mem_cons_of_mem _ h)
      · rintro (h | h)
        · exact Or.inl h
        · rcases List.mem_cons.mp h with h1 | h1
          · subst h1; exact Or.inl ha
          · exact Or.inr h1
    · rw [if_neg hc]
      simp only [List.mem_append, List.mem_cons, List.mem_singleton]
      tauto

theorem mem_mkdirChain (ds : List FsPath) (p : FsPath) (q : FsPath) :
    q ∈ mkdirChain ds p ↔ q ∈ ds ∨ (q ∈ p.inits ∧ q ≠ []) := by
  unfold mkdirChain
  rw [mem_foldl_add]
  simp [List.mem_filter]

theorem pathExists_false_dirs {fs : Fs} {b : FsPath} (h : pathExists fs b = false) :
    b ∉ fs.dirs := by
  intro hm
  unfold pathExists at h
  rw [Bool.or_eq_false_iff] at h
  have helem := List.elem_iff.mpr hm
  have h1 : List.elem b fs.dirs = false := h.1
  rw [h1] at helem
  exact Bool.noConfusion helem

theorem pathExists_false_files {fs : Fs} {b : FsPath} (h : pathExists fs b = false) :
    ∀ e ∈ fs.files, e.1 ≠ b := by
  intro e he
  unfold pathExists at h
  rw [Bool.or_eq_false_iff] at h
  have := List.any_eq_false.mp h.2 e he
  simpa using this

theorem fsClosed_ancestor {fs : Fs} (hc : fsClosed fs = true) {q r : FsPath}
    (hq : q ∈ fs.dirs ∨ q ∈ fs.files.map Prod.fst) (hr : r <+: q) (hne : r ≠ [])
    (hneq : r ≠ q) : r ∈ fs.dirs := by
  unfold fsClosed at hc
  rw [List.all_eq_true] at hc
  have hq' : q ∈ fs.dirs ++ fs.files.map Prod.fst := List.mem_append.mpr hq
  have h2 := hc q hq'
  rw [List.all_eq_true] at h2
  have hmem : r ∈ q.inits.filter (fun s => decide (s ≠ [] ∧ s ≠ q)) := by
    rw [List.mem_filter]
    exact ⟨(List.mem_inits r q).mpr hr, by simp [hne, hneq]⟩
  exact List.elem_iff.mp (h2 r hmem)

theorem prepared_base_clean (outputDir version : String) (fs : Fs) (hc : fsClosed fs = true) :
    (∀ q ∈ (if pathExists fs [outputDir, version] then
        remove_dir_all fs [outputDir, version] else fs).dirs,
      ¬ [outputDir, version] <+: q) ∧
    (∀ e ∈ (if pathExists fs [outputDir, version] then
        remove_dir_all fs [outputDir, version] else fs).files,
      ¬ [outputDir, version] <+: e.1) := by
  by_cases hpe : pathExists fs [outputDir, version] = true
  · rw [if_pos hpe]
    constructor
    · intro q hq hpre
      have hmf := List.of_mem_filter hq
      simp only [decide_not, Bool.not_eq_eq_eq_not, Bool.not_true, decide_eq_false_iff_not] at hmf
      exact hmf (List.isPrefixOf_iff_prefix.mpr hpre)
    · intro e he hpre
      have hmf := List.of_mem_filter he
      simp only [decide_not, Bool.not_eq_eq_eq_not, Bool.not_true, decide_eq_false_iff_not] at hmf
      exact hmf (List.isPrefixOf_iff_prefix.mpr hpre)
  · have hpe' : pathExists fs [outputDir, version] = false := by
      revert hpe; cases pathExists fs [outputDir, version] <;> simp
    rw [if_neg hpe]
    constructor
    · intro q hq hpre
      by_cases hbq : [outputDir, version] = q
      · exact pathExists_false_dirs hpe' (hbq ▸ hq)
      · exact pathExists_false_dirs hpe'
          (fsClosed_ancestor hc (Or.inl hq) hpre (by simp) hbq)
    · intro e he hpre
      by_cases hbq : [outputDir, version] = e.1
      · exact pathExists_false_files hpe' e he hbq.symm
      · have : e.1 ∈ fs.files.map Prod.fst := List.mem_map_of_mem Prod.fst he
        exact pathExists_false_dirs hpe'
          (fsClosed_ancestor hc (Or.inr this) hpre (by simp) hbq)

/-- Claim C7: at the start of a run, any pre-existing per-version
directory is fully deleted before the fixed subdirectory layout is
recreated — on every well-formed filesystem state the entries under the
per-version directory after `prepare_dirs` are exactly the five layout
directories and no files, independent of leftover state. -/
theorem prepare_dirs_fixed_layout (outputDir version : String) (fs : Fs)
    (hc : fsClosed fs = true) :
    (∀ q : FsPath, ([outputDir, version]).isPrefixOf q = true →
      (q ∈ (prepare_dirs outputDir version fs).dirs ↔ q ∈ preparedLayout outputDir version)) ∧
    (∀ e ∈ (prepare_dirs outputDir version fs).files,
      ([outputDir, version]).isPrefixOf e.1 = false) := by
  obtain ⟨hd, hf⟩ := prepared_base_clean outputDir version fs hc
  constructor
  · intro q hq
    have hpre : [outputDir, version] <+: q := List.isPrefixOf_iff_prefix.mp hq
    have hlen : 2 ≤ q.length := by simpa using hpre.length_le
    have hdirs : (prepare_dirs outputDir version fs).dirs
        = mkdirChain (mkdirChain (mkdirChain (mkdirChain
            (if pathExists fs [outputDir, version] then
              remove_dir_all fs [outputDir, version] else fs).dirs
            [outputDir, version])
            [outputDir, version, "temp", "extracted"])
            [outputDir, version, "src"])
            [outputDir, version, "mod"] := by
      simp only [prepare_dirs, create_dir_all]
    rw [hdirs, mem_mkdirChain, mem_mkdirChain, mem_mkdirChain, mem_mkdirChain]
    constructor
    · rintro ((((hbase | hin) | hin) | hin) | hin)
      · exact absurd hpre (hd q hbase)
      · obtain ⟨hi, hne⟩ := hin
        simp [List.inits] at hi
        rcases hi with rfl | rfl | rfl
        · exact absurd rfl hne
        · simp at hlen
        · simp [preparedLayout]
      · obtain ⟨hi, hne⟩ := hin
        simp [List.inits] at hi
        rcases hi with rfl | rfl | rfl | rfl | rfl
        · exact absurd rfl hne
        · simp at hlen
        · simp [preparedLayout]
        · simp [preparedLayout]
        · simp [preparedLayout]
      · obtain ⟨hi, hne⟩ := hin
        simp [List.inits] at hi
        rcases hi with rfl | rfl | rfl | rfl
        · exact absurd rfl hne
        · simp at hlen
        · simp [preparedLayout]
        · simp [preparedLayout]
      · obtain ⟨hi, hne⟩ := hin
        simp [List.inits] at hi
        rcases hi with rfl | rfl | rfl | rfl
        · exact absurd rfl hne
        · simp at hlen
        · simp [preparedLayout]
        · simp [preparedLayout]
    · intro hlay
      simp [preparedLayout] at hlay
      rcases hlay with rfl | rfl | rfl | rfl | rfl
      · exact Or.inl (Or.inl (Or.inl (Or.inr ⟨by simp [List.inits], by simp⟩)))
      · exact Or.inl (Or.inl (Or.inr ⟨by simp [List.inits], by simp⟩))
      · exact Or.inl (Or.inl (Or.inr ⟨by simp [List.inits], by simp⟩))
      · exact Or.inl (Or.inr ⟨by simp [List.inits], by simp⟩)
      · exact Or.inr ⟨by simp [List.inits], by simp⟩
  · intro e he
    have hfe : (prepare_dirs outputDir version fs).files
        = (if pathExists fs [outputDir, version] then
            remove_dir_all fs [outputDir, version] else fs).files := by
      simp only [prepare_dirs, create_dir_all]
    rw [hfe] at he
    exact Bool.eq_false_iff.mpr
      (fun hh => hf e he (List.isPrefixOf_iff_prefix.mp hh))

/-- Witness for C7: a leftover tree from a previous run is wiped — the
junk directory is gone, the layout directories are present. -/
theorem prepare_dirs_fixed_layout_witness :
    (["o", "1.0", "temp"] : FsPath) ∈
      (prepare_dirs "o" "1.0"
        ⟨[["o"], ["o", "1.0"], ["o", "1.0", "junk"]],
          [(["o", "1.0", "junk", "f.txt"], "leftover")]⟩).dirs ∧
    (["o", "1.0", "junk"] : FsPath) ∉
      (prepare_dirs "o" "1.0"
        ⟨[["o"], ["o", "1.0"], ["o", "1.0", "junk"]],
          [(["o", "1.0", "junk", "f.txt"], "leftover")]⟩).dirs := by
  have h := prepare_dirs_fixed_layout "o" "1.0"
    ⟨[["o"], ["o", "1.0"], ["o", "1.0", "junk"]],
      [(["o", "1.0", "junk", "f.txt"], "leftover")]⟩ (by decide)
  constructor
  · exact (h.1 ["o", "1.0", "temp"] (by decide)).mpr (by decide)
  · intro hm
    have := (h.1 ["o", "1.0", "junk"] (by decide)).mp hm
    revert this
    decide
